import Mathlib

/-!
Verification development for the uplora CRM backend.

The services under `src/services` (clients, chat/leads, deals, dashboard,
tasks) are shallowly embedded below: each SQL-backed operation becomes a pure
Lean function over an explicit database state, and the JavaScript string /
number idioms it relies on (`parseInt`, `padStart`, `toLowerCase`, truthiness,
`Array.prototype.sort`) are embedded as executable Lean functions.  Machine
numbers are modelled as `Nat`/`Int`; fallible operations return `Except` or
pair their result with the post-transaction state.

This first section provides the decimal-string toolkit shared by the client
number generator (`clients.service.ts`) and the timestamp formatting code
(`dashboard.service.ts` / `chat.service.ts`).
-/

namespace Crm

/-- Decimal digit character for a value below ten: code point 48 + n, exactly
what `Number.prototype.toString` emits digit by digit. -/
def digitChar (n : Nat) : Char := Char.ofNat (48 + n)

/-- Numeric value of a decimal digit character. -/
def digitVal (c : Char) : Nat := c.toNat - 48

/-- Decimal digit test (code points 0x30 to 0x39). -/
def isDigitCh (c : Char) : Bool := 48 ≤ c.toNat && c.toNat ≤ 57

/-- Fuel-driven construction of the decimal digits of a natural number, most
significant digit first.  The fuel makes the function structurally recursive
so that concrete instances evaluate inside `decide` / `rfl`; `natDigits`
always supplies enough fuel. -/
def natDigitsAux : Nat → Nat → List Char
  | 0, _ => []
  | fuel + 1, n =>
    if n < 10 then [digitChar n]
    else natDigitsAux fuel (n / 10) ++ [digitChar (n % 10)]

/-- Embedding of JS `Number.prototype.toString()` on a nonnegative integer:
its decimal digit characters. -/
def natDigits (n : Nat) : List Char := natDigitsAux (n + 1) n

/-- Numeric value of a decimal digit string, accumulated left to right the way
`parseInt` accumulates it. -/
def listVal (l : List Char) : Nat := l.foldl (fun acc c => acc * 10 + digitVal c) 0

/-- Embedding of JS `String.prototype.padStart(w, '0')`: left-pad with zeros up
to width `w`; a longer input is returned unchanged. -/
def padZero (w : Nat) (l : List Char) : List Char := List.replicate (w - l.length) '0' ++ l

/-- Embedding of JS `parseInt` on a trimmed string: the value of the leading
run of digits, `none` (NaN) when the string does not start with a digit. -/
def parseIntJs (s : List Char) : Option Nat :=
  let ds := s.takeWhile isDigitCh
  if ds.isEmpty then none else some (listVal ds)

/-- The fixed-width decimal expansion of `n % 10 ^ w`: the explicit digit-list
shape that a zero-padded number has.  Used as the normal form for reasoning
about padded client numbers and timestamp fields. -/
def digitsW : Nat → Nat → List Char
  | 0, _ => []
  | w + 1, n => digitsW w (n / 10) ++ [digitChar (n % 10)]

/-- Bytewise lexicographic strict order on strings as char lists: the order in
which the database compares `VARCHAR` values under byte collation, hence the
order behind `ORDER BY client_number DESC`. -/
def lexLt : List Char → List Char → Bool
  | [], [] => false
  | [], _ :: _ => true
  | _ :: _, [] => false
  | a :: as, b :: bs =>
    if a.toNat < b.toNat then true
    else if b.toNat < a.toNat then false
    else lexLt as bs

theorem digitVal_digitChar {n : Nat} (h : n < 10) : digitVal (digitChar n) = n := by
  interval_cases n <;> decide

theorem isDigitCh_digitChar {n : Nat} (h : n < 10) : isDigitCh (digitChar n) = true := by
  interval_cases n <;> decide

theorem natDigitsAux_fuel : ∀ f g n, n < f → n < g → natDigitsAux f n = natDigitsAux g n := by
  intro f
  induction f with
  | zero => intro g n h; omega
  | succ f ih =>
    intro g n hf hg
    cases g with
    | zero => omega
    | succ g =>
      by_cases h10 : n < 10
      · simp [natDigitsAux, h10]
      · have hn : 0 < n := by omega
        have hd : n / 10 < n := Nat.div_lt_self hn (by omega)
        simp only [natDigitsAux, h10, if_false]
        rw [ih g (n / 10) (by omega) (by omega)]

theorem natDigits_lt10 {n : Nat} (h : n < 10) : natDigits n = [digitChar n] := by
  simp [natDigits, natDigitsAux, h]

theorem natDigitsAux_succ (fuel n : Nat) :
    natDigitsAux (fuel + 1) n =
      if n < 10 then [digitChar n] else natDigitsAux fuel (n / 10) ++ [digitChar (n % 10)] :=
  rfl

theorem natDigits_ge10 {n : Nat} (h : 10 ≤ n) :
    natDigits n = natDigits (n / 10) ++ [digitChar (n % 10)] := by
  have hd : n / 10 < n := Nat.div_lt_self (by omega) (by omega)
  show natDigitsAux (n + 1) n = _
  rw [natDigitsAux_succ, if_neg (Nat.not_lt.mpr h),
    natDigitsAux_fuel n (n / 10 + 1) (n / 10) (by omega) (by omega)]
  rfl

theorem foldl_val (l : List Char) : ∀ v : Nat,
    l.foldl (fun acc c => acc * 10 + digitVal c) v = v * 10 ^ l.length + listVal l := by
  induction l with
  | nil => intro v; simp [listVal]
  | cons c cs ih =>
    intro v
    have h1 := ih (v * 10 + digitVal c)
    have h2 := ih (digitVal c)
    simp only [List.foldl_cons, List.length_cons] at *
    rw [h1]
    have : listVal (c :: cs) = digitVal c * 10 ^ cs.length + listVal cs := by
      simp only [listVal, List.foldl_cons, Nat.zero_mul, Nat.zero_add] at h2 ⊢
      exact h2
    rw [this]
    ring

theorem listVal_cons (c : Char) (cs : List Char) :
    listVal (c :: cs) = digitVal c * 10 ^ cs.length + listVal cs := by
  have h := foldl_val cs (digitVal c)
  simp only [listVal, List.foldl_cons, Nat.zero_mul, Nat.zero_add]
  exact h

theorem listVal_append_one (l : List Char) (c : Char) :
    listVal (l ++ [c]) = listVal l * 10 + digitVal c := by
  simp [listVal, List.foldl_append]

theorem listVal_lt (l : List Char) (h : ∀ c ∈ l, isDigitCh c = true) :
    listVal l < 10 ^ l.length := by
  induction l with
  | nil => simp [listVal]
  | cons c cs ih =>
    have hc : isDigitCh c = true := h c (by simp)
    have hd : digitVal c ≤ 9 := by
      simp only [isDigitCh, Bool.and_eq_true, decide_eq_true_eq] at hc
      simp only [digitVal]; omega
    have hcs := ih (fun x hx => h x (by simp [hx]))
    rw [listVal_cons]
    have hmul : digitVal c * 10 ^ cs.length ≤ 9 * 10 ^ cs.length :=
      Nat.mul_le_mul_right _ hd
    have hpow : (10 : Nat) ^ (c :: cs).length = 10 * 10 ^ cs.length := by
      rw [List.length_cons, pow_succ]; ring
    omega

theorem listVal_natDigits (n : Nat) : listVal (natDigits n) = n := by
  induction n using Nat.strong_induction_on with
  | _ n ih =>
    by_cases h : n < 10
    · rw [natDigits_lt10 h]
      simp [listVal, digitVal_digitChar h]
    · have h' : 10 ≤ n := by omega
      rw [natDigits_ge10 h', listVal_append_one]
      have hd : n / 10 < n := Nat.div_lt_self (by omega) (by omega)
      rw [ih (n / 10) hd, digitVal_digitChar (Nat.mod_lt n (by omega))]
      omega

theorem natDigits_digits (n : Nat) : ∀ c ∈ natDigits n, isDigitCh c = true := by
  induction n using Nat.strong_induction_on with
  | _ n ih =>
    by_cases h : n < 10
    · rw [natDigits_lt10 h]
      intro c hc
      simp only [List.mem_singleton] at hc
      subst hc
      exact isDigitCh_digitChar h
    · have h' : 10 ≤ n := by omega
      rw [natDigits_ge10 h']
      intro c hc
      rcases List.mem_append.mp hc with h1 | h2
      · exact ih (n / 10) (Nat.div_lt_self (by omega) (by omega)) c h1
      · simp only [List.mem_singleton] at h2
        subst h2
        exact isDigitCh_digitChar (Nat.mod_lt n (by omega))

theorem natDigits_length_le : ∀ k n : Nat, n < 10 ^ (k + 1) → (natDigits n).length ≤ k + 1 := by
  intro k
  induction k with
  | zero =>
    intro n h
    rw [natDigits_lt10 (by simpa using h)]
    simp
  | succ k ih =>
    intro n h
    by_cases h10 : n < 10
    · rw [natDigits_lt10 h10]; simp
    · rw [natDigits_ge10 (by omega)]
      have hd : n / 10 < 10 ^ (k + 1) := by
        have hp : (10 : Nat) ^ (k + 2) = 10 ^ (k + 1) * 10 := by ring
        rw [hp] at h
        exact Nat.div_lt_of_lt_mul (by omega)
      have := ih (n / 10) hd
      simp only [List.length_append, List.length_singleton]
      omega

theorem digitsW_length (w : Nat) : ∀ n, (digitsW w n).length = w := by
  induction w with
  | zero => intro n; simp [digitsW]
  | succ w ih => intro n; simp [digitsW, ih]

theorem digitsW_digits (w : Nat) : ∀ n, ∀ c ∈ digitsW w n, isDigitCh c = true := by
  induction w with
  | zero => intro n c hc; simp [digitsW] at hc
  | succ w ih =>
    intro n c hc
    simp only [digitsW] at hc
    rcases List.mem_append.mp hc with h1 | h2
    · exact ih (n / 10) c h1
    · simp only [List.mem_singleton] at h2
      subst h2
      exact isDigitCh_digitChar (Nat.mod_lt n (by omega))

theorem digitsW_zero : ∀ w, digitsW w 0 = List.replicate w '0' := by
  intro w
  induction w with
  | zero => rfl
  | succ w ih =>
    show digitsW w (0 / 10) ++ [digitChar (0 % 10)] = _
    rw [Nat.zero_div, ih]
    have : digitChar (0 % 10) = '0' := by decide
    rw [this, ← List.replicate_succ']

theorem digitsW_succ (w n : Nat) :
    digitsW (w + 1) n = digitsW w (n / 10) ++ [digitChar (n % 10)] := rfl

theorem padZero_natDigits : ∀ w n, n < 10 ^ (w + 1) →
    padZero (w + 1) (natDigits n) = digitsW (w + 1) n := by
  intro w
  induction w with
  | zero =>
    intro n h
    have h10 : n < 10 := by simpa using h
    rw [natDigits_lt10 h10, digitsW_succ, Nat.div_eq_of_lt h10, Nat.mod_eq_of_lt h10]
    simp [padZero, digitsW]
  | succ w ih =>
    intro n h
    by_cases h10 : n < 10
    · rw [natDigits_lt10 h10, digitsW_succ, Nat.div_eq_of_lt h10, Nat.mod_eq_of_lt h10,
        digitsW_zero]
      simp [padZero]
    · have hge : 10 ≤ n := by omega
      have hd : n / 10 < 10 ^ (w + 1) := by
        have hp : (10 : Nat) ^ (w + 1 + 1) = 10 ^ (w + 1) * 10 := by ring
        rw [hp] at h
        exact Nat.div_lt_of_lt_mul (by omega)
      have hlen : (natDigits (n / 10)).length ≤ w + 1 := natDigits_length_le w (n / 10) hd
      rw [digitsW_succ, ← ih (n / 10) hd, natDigits_ge10 hge]
      simp only [padZero, List.length_append, List.length_singleton, List.append_assoc]
      have hc : w + 1 + 1 - ((natDigits (n / 10)).length + 1) =
          w + 1 - (natDigits (n / 10)).length := by omega
      rw [hc]

theorem listVal_digitsW (w : Nat) : ∀ n, listVal (digitsW w n) = n % 10 ^ w := by
  induction w with
  | zero => intro n; simp [digitsW, listVal, Nat.mod_one]
  | succ w ih =>
    intro n
    rw [digitsW_succ, listVal_append_one, ih (n / 10),
      digitVal_digitChar (Nat.mod_lt n (by omega))]
    set M := 10 ^ w with hM
    have hMpos : 0 < M := Nat.pow_pos (by omega)
    have hp : (10 : Nat) ^ (w + 1) = 10 * M := by rw [hM]; ring
    rw [hp]
    have hsplit : n = (n / 10 % M * 10 + n % 10) + n / 10 / M * (10 * M) := by
      calc n = 10 * (n / 10) + n % 10 := (Nat.div_add_mod n 10).symm
        _ = 10 * (M * (n / 10 / M) + n / 10 % M) + n % 10 := by
            rw [Nat.div_add_mod (n / 10) M]
        _ = (n / 10 % M * 10 + n % 10) + n / 10 / M * (10 * M) := by ring
    have hbound : n / 10 % M * 10 + n % 10 < 10 * M := by
      have h1 : n / 10 % M < M := Nat.mod_lt _ hMpos
      have h2 : n % 10 < 10 := Nat.mod_lt n (by omega)
      omega
    calc n / 10 % M * 10 + n % 10
        = (n / 10 % M * 10 + n % 10) % (10 * M) := (Nat.mod_eq_of_lt hbound).symm
      _ = ((n / 10 % M * 10 + n % 10) + n / 10 / M * (10 * M)) % (10 * M) := by
          rw [Nat.add_mul_mod_self_right]
      _ = n % (10 * M) := by rw [← hsplit]

theorem lexLt_irrefl : ∀ l, lexLt l l = false := by
  intro l
  induction l with
  | nil => rfl
  | cons c cs ih => simp [lexLt, ih]

theorem lexLt_antisymm : ∀ a b, lexLt a b = false → lexLt b a = false → a = b := by
  intro a
  induction a with
  | nil =>
    intro b h1 _
    cases b with
    | nil => rfl
    | cons c cs => simp [lexLt] at h1
  | cons x xs ih =>
    intro b h1 h2
    cases b with
    | nil => simp [lexLt] at h2
    | cons y ys =>
      simp only [lexLt] at h1 h2
      by_cases hxy : x.toNat < y.toNat
      · simp [hxy] at h1
      · by_cases hyx : y.toNat < x.toNat
        · simp [hyx, hxy] at h2
        · have hteq : x.toNat = y.toNat := by omega
          have hx : x = y := by
            apply Char.eq_of_val_eq
            apply UInt32.toNat.inj
            simpa [Char.toNat] using hteq
          subst hx
          simp only [Nat.lt_irrefl, if_false] at h1 h2
          rw [ih ys h1 h2]

theorem lexLt_append_same : ∀ p a b, lexLt (p ++ a) (p ++ b) = lexLt a b := by
  intro p a b
  induction p with
  | nil => rfl
  | cons c cs ih => simp [lexLt, ih]

theorem lexLt_iff_val : ∀ a b : List Char, a.length = b.length →
    (∀ c ∈ a, isDigitCh c = true) → (∀ c ∈ b, isDigitCh c = true) →
    (lexLt a b = true ↔ listVal a < listVal b) := by
  intro a
  induction a with
  | nil =>
    intro b hlen _ _
    cases b with
    | nil => simp [lexLt, listVal]
    | cons y ys => simp at hlen
  | cons x xs ih =>
    intro b hlen ha hb
    cases b with
    | nil => simp at hlen
    | cons y ys =>
      have hlen' : xs.length = ys.length := by simpa using hlen
      have hxd : isDigitCh x = true := ha x (by simp)
      have hyd : isDigitCh y = true := hb y (by simp)
      simp only [isDigitCh, Bool.and_eq_true, decide_eq_true_eq] at hxd hyd
      have hxv : digitVal x = x.toNat - 48 := rfl
      have hyv : digitVal y = y.toNat - 48 := rfl
      rw [listVal_cons, listVal_cons, hlen']
      have hxs_lt : listVal xs < 10 ^ xs.length :=
        listVal_lt xs (fun c hc => ha c (by simp [hc]))
      have hys_lt : listVal ys < 10 ^ ys.length :=
        listVal_lt ys (fun c hc => hb c (by simp [hc]))
      by_cases hxy : x.toNat < y.toNat
      · have hL : lexLt (x :: xs) (y :: ys) = true := by
          simp only [lexLt, if_pos hxy]
        rw [hL]
        have hdv : digitVal x + 1 ≤ digitVal y := by omega
        have hstrict : digitVal x * 10 ^ ys.length + listVal xs <
            digitVal y * 10 ^ ys.length + listVal ys := by
          calc digitVal x * 10 ^ ys.length + listVal xs
              < digitVal x * 10 ^ ys.length + 10 ^ ys.length := by rw [← hlen']; omega
            _ = (digitVal x + 1) * 10 ^ ys.length := by ring
            _ ≤ digitVal y * 10 ^ ys.length := Nat.mul_le_mul_right _ hdv
            _ ≤ digitVal y * 10 ^ ys.length + listVal ys := by omega
        exact iff_of_true rfl hstrict
      · by_cases hyx : y.toNat < x.toNat
        · have hL : lexLt (x :: xs) (y :: ys) = false := by
            simp only [lexLt, if_neg hxy, if_pos hyx]
          rw [hL]
          have hdv : digitVal y + 1 ≤ digitVal x := by omega
          have hstrict : digitVal y * 10 ^ ys.length + listVal ys <
              digitVal x * 10 ^ ys.length + listVal xs := by
            calc digitVal y * 10 ^ ys.length + listVal ys
                < digitVal y * 10 ^ ys.length + 10 ^ ys.length := by omega
              _ = (digitVal y + 1) * 10 ^ ys.length := by ring
              _ ≤ digitVal x * 10 ^ ys.length := Nat.mul_le_mul_right _ hdv
              _ ≤ digitVal x * 10 ^ ys.length + listVal xs := by omega
          exact iff_of_false (by simp) (by omega)
        · have hx : digitVal x = digitVal y := by
            simp only [digitVal]; omega
          have hL : lexLt (x :: xs) (y :: ys) = lexLt xs ys := by
            simp only [lexLt, if_neg hxy, if_neg hyx]
          rw [hL, ih ys hlen' (fun c hc => ha c (by simp [hc]))
            (fun c hc => hb c (by simp [hc])), hx]
          omega


/-!
Embedding of `src/services/clients.service.ts`: the contacts table as seen by
the clients service, the client-number generator, and `createClient`.
-/

/-- JS `x || null` on an optional string: the empty string is falsy. -/
def jsOrStr : Option String → Option String
  | none => none
  | some s => if s = "" then none else some s

/-- JS `x || null` on an optional number: zero is falsy. -/
def jsOrNat : Option Nat → Option Nat
  | none => none
  | some n => if n = 0 then none else some n

/-- A row of the `contacts` table with the columns the clients service reads
and writes (`001_init.sql`, `007_add_client_number_to_contacts.sql`,
`008_add_deleted_at_to_contacts.sql`).  Timestamps are clock readings
(`NOW()`) modelled as `Nat`. -/
structure ContactRow where
  id : Nat
  name : String
  email : Option String
  phone : Option String
  company : Option String
  is_client : Bool
  client_number : Option (List Char)
  lead_id : Option Nat
  deleted_at : Option Nat
  created_at : Nat
  updated_at : Nat
deriving Repr, DecidableEq

/-- The `client_number` values selected by
`WHERE client_number IS NOT NULL AND client_number LIKE 'CLT-%'`. -/
def cltNumbers (contacts : List ContactRow) : List (List Char) :=
  (contacts.filterMap (·.client_number)).filter (fun s => "CLT-".data.isPrefixOf s)

/-- The row `ORDER BY client_number DESC LIMIT 1` returns: the greatest value
in bytewise lexicographic order, `none` on an empty result set. -/
def lexMax : List (List Char) → Option (List Char)
  | [] => none
  | s :: rest =>
    match lexMax rest with
    | none => some s
    | some m => if lexLt m s then some s else some m

/-- Embedding of JS `String.prototype.replace(pat, '')` with a string pattern:
removes the first occurrence of `pat`, leaves the string unchanged when `pat`
does not occur. -/
def replaceFirst (pat : List Char) : List Char → List Char
  | [] => []
  | c :: cs =>
    if pat.isPrefixOf (c :: cs) then (c :: cs).drop pat.length
    else c :: replaceFirst pat cs

/-- Embedding of `generateClientNumber` (clients.service.ts:115-139): read the
greatest `client_number` matching `CLT-%` (string order), return `CLT-000001`
when there is none, otherwise `parseInt` of the value with the first `CLT-`
removed, plus one, zero-padded to six digits.  When `parseInt` yields NaN the
JS code produces the literal string `CLT-000NaN`, kept here verbatim. -/
def generateClientNumber (contacts : List ContactRow) : List Char :=
  match lexMax (cltNumbers contacts) with
  | none => "CLT-000001".data
  | some m =>
    match parseIntJs (replaceFirst "CLT-".data m) with
    | some lastNumber => "CLT-".data ++ padZero 6 (natDigits (lastNumber + 1))
    | none => "CLT-000NaN".data

/-- Input of `createClient`. -/
structure CreateClientData where
  name : String
  email : Option String
  phone : Option String
  company : Option String
  lead_id : Option Nat
deriving Repr, DecidableEq

/-- Embedding of `createClient` (clients.service.ts:147-175): generate the
client number, then insert the contact row with `is_client = true`; optional
fields go through JS `|| null`. -/
def createClient (contacts : List ContactRow) (nextId now : Nat)
    (data : CreateClientData) : List ContactRow :=
  let clientNumber := generateClientNumber contacts
  contacts ++ [{ id := nextId, name := data.name, email := jsOrStr data.email,
                 phone := jsOrStr data.phone, company := jsOrStr data.company,
                 is_client := true, client_number := some clientNumber,
                 lead_id := jsOrNat data.lead_id, deleted_at := none,
                 created_at := now, updated_at := now }]

/-- `N` sequential `createClient` calls on top of `init`; call `i` uses input
`dat i`.  Ids and clock values do not influence client numbers. -/
def seqCreate (init : List ContactRow) (dat : Nat → CreateClientData) : Nat → List ContactRow
  | 0 => init
  | n + 1 => createClient (seqCreate init dat n) n n (dat n)

/-- The client number the spec expects for the `k`-th client. -/
def cltNum (k : Nat) : List Char := "CLT-".data ++ padZero 6 (natDigits k)

/-- The expected sequence `CLT-000001 … CLT-(pad N)`. -/
def cltSeq (n : Nat) : List (List Char) := (List.range n).map (fun i => cltNum (i + 1))

/-- A fixed `createClient` input for concrete scenarios. -/
def sampleClientData : CreateClientData :=
  { name := "Acme", email := none, phone := none, company := none, lead_id := none }

theorem isPrefixOf_append_self (p l : List Char) : p.isPrefixOf (p ++ l) = true := by
  induction p with
  | nil => simp
  | cons c cs ih => simp [ih]

theorem takeWhile_all (l : List Char) (h : ∀ c ∈ l, isDigitCh c = true) :
    l.takeWhile isDigitCh = l := by
  induction l with
  | nil => rfl
  | cons c cs ih =>
    rw [List.takeWhile_cons, if_pos (h c (by simp))]
    rw [ih (fun x hx => h x (by simp [hx]))]

theorem listVal_replicate_zero (j : Nat) (l : List Char) :
    listVal (List.replicate j '0' ++ l) = listVal l := by
  induction j with
  | zero => rfl
  | succ j ih =>
    rw [List.replicate_succ, List.cons_append]
    show listVal ('0' :: (List.replicate j '0' ++ l)) = listVal l
    simp only [listVal, List.foldl_cons] at ih ⊢
    have : digitVal '0' = 0 := by decide
    rw [this]
    simpa using ih

theorem listVal_padZero (w : Nat) (l : List Char) : listVal (padZero w l) = listVal l :=
  listVal_replicate_zero _ l

theorem listVal_cltSuffix (k : Nat) : listVal (padZero 6 (natDigits k)) = k := by
  rw [listVal_padZero, listVal_natDigits]

theorem cltNum_inj {a b : Nat} (h : cltNum a = cltNum b) : a = b := by
  have h2 : padZero 6 (natDigits a) = padZero 6 (natDigits b) :=
    List.append_cancel_left h
  have := congrArg listVal h2
  rwa [listVal_cltSuffix, listVal_cltSuffix] at this

theorem cltSeq_succ (n : Nat) : cltSeq (n + 1) = cltSeq n ++ [cltNum (n + 1)] := by
  simp [cltSeq, List.range_succ]

theorem cltSeq_nodup (n : Nat) : (cltSeq n).Nodup := by
  apply List.Nodup.map_on _ (List.nodup_range n)
  intro x _ y _ hxy
  have := cltNum_inj hxy
  omega


theorem lexLt_trans : ∀ a b c : List Char,
    lexLt a b = true → lexLt b c = true → lexLt a c = true := by
  intro a
  induction a with
  | nil =>
    intro b c h1 h2
    cases b with
    | nil => simp [lexLt] at h1
    | cons y ys =>
      cases c with
      | nil => simp [lexLt] at h2
      | cons z zs => simp [lexLt]
  | cons x xs ih =>
    intro b c h1 h2
    cases b with
    | nil => simp [lexLt] at h1
    | cons y ys =>
      cases c with
      | nil => simp [lexLt] at h2
      | cons z zs =>
        simp only [lexLt] at h1 h2 ⊢
        by_cases hxy : x.toNat < y.toNat
        · by_cases hyz : y.toNat < z.toNat
          · rw [if_pos (by omega : x.toNat < z.toNat)]
          · by_cases hzy : z.toNat < y.toNat
            · rw [if_neg hyz, if_pos hzy] at h2
              exact absurd h2 (by simp)
            · rw [if_pos (by omega : x.toNat < z.toNat)]
        · by_cases hyx : y.toNat < x.toNat
          · rw [if_neg hxy, if_pos hyx] at h1
            exact absurd h1 (by simp)
          · rw [if_neg hxy, if_neg hyx] at h1
            by_cases hyz : y.toNat < z.toNat
            · rw [if_pos (by omega : x.toNat < z.toNat)]
            · by_cases hzy : z.toNat < y.toNat
              · rw [if_neg hyz, if_pos hzy] at h2
                exact absurd h2 (by simp)
              · rw [if_neg hyz, if_neg hzy] at h2
                rw [if_neg (by omega : ¬ x.toNat < z.toNat),
                  if_neg (by omega : ¬ z.toNat < x.toNat)]
                exact ih ys zs h1 h2

theorem lexMax_spec : ∀ l : List (List Char), l ≠ [] →
    ∃ m, lexMax l = some m ∧ m ∈ l ∧ ∀ x ∈ l, lexLt m x = false := by
  intro l
  induction l with
  | nil => intro h; contradiction
  | cons s rest ih =>
    intro _
    by_cases hrest : rest = []
    · subst hrest
      refine ⟨s, by simp [lexMax], by simp, ?_⟩
      intro x hx
      simp only [List.mem_singleton] at hx
      subst hx
      exact lexLt_irrefl x
    · obtain ⟨m, hm, hmem, hmax⟩ := ih hrest
      by_cases hlt : lexLt m s = true
      · refine ⟨s, ?_, by simp, ?_⟩
        · simp [lexMax, hm, hlt]
        · intro x hx
          rcases List.mem_cons.mp hx with h | h
          · subst h; exact lexLt_irrefl x
          · by_cases hsx : lexLt s x = true
            · have hms := lexLt_trans m s x hlt hsx
              rw [hmax x h] at hms
              exact absurd hms (by simp)
            · simpa using hsx
      · refine ⟨m, ?_, by simp [hmem], ?_⟩
        · simp only [lexMax, hm]
          rw [if_neg hlt]
        · intro x hx
          rcases List.mem_cons.mp hx with h | h
          · subst h; simpa using hlt
          · exact hmax x h

theorem cltNum_eq_digitsW {k : Nat} (h : k < 1000000) :
    cltNum k = "CLT-".data ++ digitsW 6 k := by
  have hp := padZero_natDigits 5 k (by norm_num; omega)
  norm_num at hp
  rw [cltNum, hp]

theorem lexLt_cltNum_iff {a b : Nat} (ha : a < 1000000) (hb : b < 1000000) :
    (lexLt (cltNum a) (cltNum b) = true) ↔ a < b := by
  rw [cltNum_eq_digitsW ha, cltNum_eq_digitsW hb, lexLt_append_same]
  rw [lexLt_iff_val (digitsW 6 a) (digitsW 6 b)
    (by rw [digitsW_length, digitsW_length]) (digitsW_digits 6 a) (digitsW_digits 6 b)]
  rw [listVal_digitsW, listVal_digitsW]
  have h6 : (10 : Nat) ^ 6 = 1000000 := by norm_num
  rw [h6, Nat.mod_eq_of_lt ha, Nat.mod_eq_of_lt hb]

theorem cltNum_mem_cltSeq {i n : Nat} (h1 : 1 ≤ i) (h2 : i ≤ n) : cltNum i ∈ cltSeq n := by
  apply List.mem_map.mpr
  exact ⟨i - 1, List.mem_range.mpr (by omega), by congr 1; omega⟩

theorem lexMax_cltSeq {n : Nat} (h1 : 1 ≤ n) (h6 : n ≤ 999999) :
    lexMax (cltSeq n) = some (cltNum n) := by
  obtain ⟨m, hm, hmem, hmax⟩ := lexMax_spec (cltSeq n) (by
    simp [cltSeq, List.range_eq_nil]; omega)
  obtain ⟨i, hi, hieq⟩ := List.mem_map.mp hmem
  have hin : i + 1 ≤ n := List.mem_range.mp hi
  have hmaxn := hmax (cltNum n) (cltNum_mem_cltSeq h1 le_rfl)
  by_cases hlt : i + 1 < n
  · have : lexLt (cltNum (i + 1)) (cltNum n) = true :=
      (lexLt_cltNum_iff (by omega) (by omega)).mpr hlt
    rw [hieq] at this
    rw [hmaxn] at this
    exact absurd this (by simp)
  · have : i + 1 = n := by omega
    rw [hm, ← hieq, this]

theorem lexLt_million : lexLt (cltNum 1000000) (cltNum 999999) = true := by decide

theorem lexMax_cltSeq_million : lexMax (cltSeq 1000000) = some (cltNum 999999) := by
  obtain ⟨m, hm, hmem, hmax⟩ := lexMax_spec (cltSeq 1000000) (by
    simp [cltSeq, List.range_eq_nil])
  obtain ⟨i, hi, hieq⟩ := List.mem_map.mp hmem
  have hin : i + 1 ≤ 1000000 := List.mem_range.mp hi
  have hmax9 := hmax (cltNum 999999) (cltNum_mem_cltSeq (by omega) (by omega))
  by_cases hone : i + 1 = 1000000
  · rw [hone] at hieq
    have hL := lexLt_million
    rw [hieq, hmax9] at hL
    exact absurd hL (by simp)
  · by_cases hlt : i + 1 < 999999
    · have : lexLt (cltNum (i + 1)) (cltNum 999999) = true :=
        (lexLt_cltNum_iff (by omega) (by omega)).mpr hlt
      rw [hieq, hmax9] at this
      exact absurd this (by simp)
    · have : i + 1 = 999999 := by omega
      rw [hm, ← hieq, this]


theorem natDigits_ne_nil (n : Nat) : natDigits n ≠ [] := by
  by_cases h : n < 10
  · rw [natDigits_lt10 h]; simp
  · rw [natDigits_ge10 (by omega)]; simp

theorem replaceFirst_append (p l : List Char) (hp : p ≠ []) :
    replaceFirst p (p ++ l) = l := by
  cases p with
  | nil => contradiction
  | cons c cs =>
    rw [List.cons_append]
    show (if (c :: cs).isPrefixOf (c :: (cs ++ l)) then
        (c :: (cs ++ l)).drop (c :: cs).length
      else c :: replaceFirst (c :: cs) (cs ++ l)) = l
    rw [if_pos (by simp [isPrefixOf_append_self])]
    simp only [List.length_cons, List.drop_succ_cons]
    exact List.drop_left cs l

theorem parseIntJs_padded (n : Nat) :
    parseIntJs (padZero 6 (natDigits n)) = some n := by
  have hdig : ∀ c ∈ padZero 6 (natDigits n), isDigitCh c = true := by
    intro c hc
    rcases List.mem_append.mp hc with h | h
    · have := List.eq_of_mem_replicate h
      subst this
      decide
    · exact natDigits_digits n c h
  have hne : padZero 6 (natDigits n) ≠ [] := by
    simp [padZero, natDigits_ne_nil n]
  rw [parseIntJs]
  simp only [takeWhile_all _ hdig]
  rw [if_neg (by simpa using hne)]
  rw [listVal_cltSuffix]

theorem generate_empty (cs : List ContactRow) (h : cltNumbers cs = []) :
    generateClientNumber cs = cltNum 1 := by
  rw [generateClientNumber, h]
  show "CLT-000001".data = cltNum 1
  decide

theorem generate_step {cs : List ContactRow} {n : Nat}
    (h : cltNumbers cs = cltSeq n) (h1 : 1 ≤ n) (h6 : n ≤ 999999) :
    generateClientNumber cs = cltNum (n + 1) := by
  rw [generateClientNumber, h, lexMax_cltSeq h1 h6]
  show (match parseIntJs (replaceFirst "CLT-".data (cltNum n)) with
    | some lastNumber => "CLT-".data ++ padZero 6 (natDigits (lastNumber + 1))
    | none => "CLT-000NaN".data) = cltNum (n + 1)
  rw [show replaceFirst "CLT-".data (cltNum n) = padZero 6 (natDigits n) from
    replaceFirst_append _ _ (by decide)]
  rw [parseIntJs_padded n]
  rfl

theorem generate_million {cs : List ContactRow}
    (h : cltNumbers cs = cltSeq 1000000) :
    generateClientNumber cs = cltNum 1000000 := by
  rw [generateClientNumber, h, lexMax_cltSeq_million]
  show (match parseIntJs (replaceFirst "CLT-".data (cltNum 999999)) with
    | some lastNumber => "CLT-".data ++ padZero 6 (natDigits (lastNumber + 1))
    | none => "CLT-000NaN".data) = cltNum 1000000
  rw [show replaceFirst "CLT-".data (cltNum 999999) = padZero 6 (natDigits 999999) from
    replaceFirst_append _ _ (by decide)]
  rw [parseIntJs_padded 999999]
  rfl

theorem generate_has_clt (cs : List ContactRow) :
    "CLT-".data.isPrefixOf (generateClientNumber cs) = true := by
  rw [generateClientNumber]
  split
  · decide
  · split
    · exact isPrefixOf_append_self _ _
    · decide

theorem cltNumbers_createClient (cs : List ContactRow) (nextId now : Nat)
    (d : CreateClientData) :
    cltNumbers (createClient cs nextId now d) =
      cltNumbers cs ++ [generateClientNumber cs] := by
  rw [createClient, cltNumbers, List.filterMap_append, List.filter_append]
  congr 1
  simp [List.filterMap, generate_has_clt cs]

theorem seq_numbers (init : List ContactRow) (dat : Nat → CreateClientData)
    (hinit : cltNumbers init = []) :
    ∀ N, N ≤ 1000000 → cltNumbers (seqCreate init dat N) = cltSeq N := by
  intro N
  induction N with
  | zero =>
    intro _
    simpa [seqCreate, cltSeq] using hinit
  | succ n ih =>
    intro hN
    rw [show seqCreate init dat (n + 1) = createClient (seqCreate init dat n) n n (dat n)
      from rfl]
    rw [cltNumbers_createClient, ih (by omega), cltSeq_succ]
    congr 1
    by_cases hz : n = 0
    · subst hz
      rw [generate_empty _ (by rw [ih (by omega)]; rfl)]
    · rw [generate_step (ih (by omega)) (by omega) (by omega)]

theorem seq_numbers_million_one (init : List ContactRow) (dat : Nat → CreateClientData)
    (hinit : cltNumbers init = []) :
    cltNumbers (seqCreate init dat 1000001) = cltSeq 1000000 ++ [cltNum 1000000] := by
  rw [show seqCreate init dat 1000001 =
      createClient (seqCreate init dat 1000000) 1000000 1000000 (dat 1000000) from rfl]
  rw [cltNumbers_createClient, seq_numbers init dat hinit 1000000 le_rfl]
  rw [generate_million (seq_numbers init dat hinit 1000000 le_rfl)]

/-- C1 counterexample: the claim as stated quantifies over every `N`.  It
fails at `N = 1000001`: after one million sequential clients the store holds
`CLT-000001 … CLT-999999, CLT-1000000`, whose lexicographically greatest
member is `CLT-999999` (the seven-digit `CLT-1000000` sorts below it), so the
next generated number is `CLT-1000000` again — a duplicate instead of
`CLT-1000001`. -/
theorem createClient_seq_counterexample :
    ¬ (∀ (init : List ContactRow) (dat : Nat → CreateClientData) (N : Nat),
        cltNumbers init = [] →
        cltNumbers (seqCreate init dat N) = cltSeq N) := by
  intro h
  have h1 := h [] (fun _ => sampleClientData) 1000001 rfl
  have h2 := seq_numbers_million_one [] (fun _ => sampleClientData) rfl
  rw [h1] at h2
  have h3 : (cltSeq 1000001).getLast? = some (cltNum 1000001) := by
    rw [cltSeq_succ]
    exact List.getLast?_concat _
  rw [h2, List.getLast?_concat] at h3
  have h4 : cltNum 1000000 = cltNum 1000001 := by
    injection h3
  have := cltNum_inj h4
  omega

/-- C1 (amended): when the store holds no `CLT-%` client number,
`createClient` assigns `CLT-000001`; otherwise it assigns `CLT-` followed by
(numeric suffix of the lexicographically greatest client number) + 1,
zero-padded to six digits.  Consequently, for every `N ≤ 1000000`, creating
`N` clients sequentially (no concurrency) starting from a store with no
client numbers yields exactly the numbers `CLT-000001` through `CLT-` pad(N),
with no gaps and no duplicates.  (Beyond one million the lexicographic
maximum diverges from the numeric maximum and the scheme repeats
`CLT-1000000`; see the counterexample.) -/
theorem createClient_sequential_numbers (init : List ContactRow)
    (dat : Nat → CreateClientData) (N : Nat)
    (hinit : cltNumbers init = []) (hN : N ≤ 1000000) :
    cltNumbers (seqCreate init dat N) = cltSeq N ∧ (cltSeq N).Nodup :=
  ⟨seq_numbers init dat hinit N hN, cltSeq_nodup N⟩

/-- Witness for the amended C1 theorem: three sequential clients starting
from the empty store receive CLT-000001, CLT-000002, CLT-000003. -/
theorem createClient_sequential_numbers_witness :
    cltNumbers ([] : List ContactRow) = [] ∧ (3 : Nat) ≤ 1000000 ∧
      (cltNumbers (seqCreate [] (fun _ => sampleClientData) 3) = cltSeq 3 ∧
        (cltSeq 3).Nodup) :=
  ⟨rfl, by decide,
    createClient_sequential_numbers [] (fun _ => sampleClientData) 3 rfl (by decide)⟩


/-!
Embedding of the soft-delete / trash operations of `clients.service.ts`
(`deleteClient`, `restoreClient`, `permanentDeleteClient`, lines 233-360).
Each one is a fresh read-check-then-write: a point `SELECT` on the contact id
followed by an `UPDATE` / `DELETE` whose `WHERE` clause re-states the guard.
The two `UPDATE`s touch no foreign key, but the hard `DELETE FROM contacts`
of `permanentDeleteClient` runs under a schema in which `leads.contact_id`
(001_init.sql:26), `activities.contact_id` (001_init.sql:67) and
`team_tasks.client_id` (the client-tasks migration) all reference
`contacts(id)` with no `ON DELETE` action, so it raises a foreign-key
violation whenever the contact is still referenced.
-/

/-- The row returned by `SELECT … FROM contacts WHERE id = $1`. -/
def findContact (contacts : List ContactRow) (id : Nat) : Option ContactRow :=
  contacts.find? (fun r => r.id == id)

/-- Row predicate of `WHERE id = $1 AND is_client = true AND deleted_at IS NULL`. -/
def activeCond (id : Nat) (c : ContactRow) : Bool :=
  c.id == id && c.is_client && c.deleted_at.isNone

/-- Row predicate of `WHERE id = $1 AND is_client = true AND deleted_at IS NOT NULL`. -/
def trashedCond (id : Nat) (c : ContactRow) : Bool :=
  c.id == id && c.is_client && c.deleted_at.isSome

/-- Embedding of `deleteClient`: check the contact exists, is a client, and is
not already deleted; then soft-delete by setting `deleted_at = NOW()`.  The
boolean result is `rowCount > 0` of the guarded `UPDATE`. -/
def deleteClient (contacts : List ContactRow) (now id : Nat) :
    Bool × List ContactRow :=
  match findContact contacts id with
  | none => (false, contacts)
  | some r =>
    if !r.is_client then (false, contacts)
    else if r.deleted_at.isSome then (false, contacts)
    else
      (contacts.any (activeCond id),
       contacts.map (fun c =>
         if activeCond id c then { c with deleted_at := some now, updated_at := now } else c))

/-- Embedding of `restoreClient`: check the contact exists, is a client, and
is deleted; then restore by setting `deleted_at = NULL`. -/
def restoreClient (contacts : List ContactRow) (now id : Nat) :
    Bool × List ContactRow :=
  match findContact contacts id with
  | none => (false, contacts)
  | some r =>
    if !r.is_client then (false, contacts)
    else if r.deleted_at.isNone then (false, contacts)
    else
      (contacts.any (trashedCond id),
       contacts.map (fun c =>
         if trashedCond id c then { c with deleted_at := none, updated_at := now } else c))

/-- Database state for the client-deletion path: the contacts table plus the
columns that reference `contacts(id)` with the default NO ACTION —
`leads.contact_id` (001_init.sql:26), `activities.contact_id`
(001_init.sql:67) and `team_tasks.client_id` (the client-tasks migration) —
abstracted to the multiset of contact ids each of them references. -/
structure ClientsDb where
  contacts : List ContactRow
  leadContactRefs : List Nat
  activityContactRefs : List Nat
  taskClientRefs : List Nat
deriving Repr, DecidableEq

/-- Whether some row of `leads`, `activities` or `team_tasks` still
references the contact: exactly the condition under which the NO ACTION
foreign keys make `DELETE FROM contacts WHERE id = $1` raise a foreign-key
violation. -/
def contactReferenced (db : ClientsDb) (id : Nat) : Bool :=
  db.leadContactRefs.any (fun i => i == id) ||
  db.activityContactRefs.any (fun i => i == id) ||
  db.taskClientRefs.any (fun i => i == id)

/-- Embedding of `permanentDeleteClient` (clients.service.ts:335-360): check
the contact exists, is a client, and is in the trash; then run
`DELETE FROM contacts WHERE id = $1 AND is_client = true AND deleted_at IS
NOT NULL`.  Every foreign key into `contacts(id)` is declared without an
`ON DELETE` action, so the `DELETE` raises a foreign-key violation whenever a
row it would remove is still referenced; the function has no try/catch (its
own comment warns "This will fail if there are foreign key constraints"), so
the error propagates and the table is left unchanged.  Otherwise the boolean
result is `rowCount > 0`. -/
def permanentDeleteClient (db : ClientsDb) (id : Nat) :
    Except String Bool × ClientsDb :=
  match findContact db.contacts id with
  | none => (Except.ok false, db)
  | some r =>
    if !r.is_client then (Except.ok false, db)
    else if r.deleted_at.isNone then (Except.ok false, db)
    else if db.contacts.any (trashedCond id) && contactReferenced db id then
      (Except.error "foreign key violation", db)
    else
      (Except.ok (db.contacts.any (trashedCond id)),
       { db with contacts := db.contacts.filter (fun c => !trashedCond id c) })

theorem findContact_of_mem {cs : List ContactRow} {r : ContactRow}
    (hnd : (cs.map (·.id)).Nodup) (hr : r ∈ cs) : findContact cs r.id = some r := by
  induction cs with
  | nil => cases hr
  | cons x rest ih =>
    rcases List.mem_cons.mp hr with h | h
    · subst h
      simp [findContact, List.find?]
    · have hx : (x.id == r.id) = false := by
        rw [List.map_cons, List.nodup_cons] at hnd
        by_contra hc
        have heq : x.id = r.id := by
          cases hb2 : (x.id == r.id) with
          | true => simpa using hb2
          | false => exact absurd hb2 hc
        exact hnd.1 (heq ▸ List.mem_map.mpr ⟨r, h, rfl⟩)
      have hnd' : (rest.map (·.id)).Nodup := by
        rw [List.map_cons, List.nodup_cons] at hnd
        exact hnd.2
      rw [findContact, List.find?]
      rw [hx]
      exact ih hnd' h

theorem findContact_mem {cs : List ContactRow} {id : Nat} {r : ContactRow}
    (h : findContact cs id = some r) : r ∈ cs ∧ r.id = id := by
  refine ⟨List.mem_of_find?_eq_some h, ?_⟩
  have := List.find?_some h
  simpa using this


theorem deleteClient_eq {cs : List ContactRow} {r : ContactRow} (now : Nat)
    (hnd : (cs.map (·.id)).Nodup) (hmem : r ∈ cs)
    (hc : r.is_client = true) (hd : r.deleted_at = none) :
    deleteClient cs now r.id =
      (true, cs.map (fun c =>
        if activeCond r.id c then { c with deleted_at := some now, updated_at := now }
        else c)) := by
  rw [deleteClient, findContact_of_mem hnd hmem]
  dsimp only
  rw [if_neg (by simp [hc]), if_neg (by simp [hd])]
  have hany : cs.any (activeCond r.id) = true :=
    List.any_eq_true.mpr ⟨r, hmem, by simp [activeCond, hc, hd]⟩
  rw [hany]

theorem restoreClient_eq {cs : List ContactRow} {r : ContactRow} (now : Nat)
    (hnd : (cs.map (·.id)).Nodup) (hmem : r ∈ cs)
    (hc : r.is_client = true) {t : Nat} (hd : r.deleted_at = some t) :
    restoreClient cs now r.id =
      (true, cs.map (fun c =>
        if trashedCond r.id c then { c with deleted_at := none, updated_at := now }
        else c)) := by
  rw [restoreClient, findContact_of_mem hnd hmem]
  dsimp only
  rw [if_neg (by simp [hc]), if_neg (by simp [hd])]
  have hany : cs.any (trashedCond r.id) = true :=
    List.any_eq_true.mpr ⟨r, hmem, by simp [trashedCond, hc, hd]⟩
  rw [hany]

theorem deleteClient_true_iff (cs : List ContactRow) (now id : Nat)
    (hnd : (cs.map (·.id)).Nodup) :
    (deleteClient cs now id).1 = true ↔
      ∃ r ∈ cs, r.id = id ∧ r.is_client = true ∧ r.deleted_at = none := by
  constructor
  · intro h
    rw [deleteClient] at h
    cases hf : findContact cs id with
    | none => rw [hf] at h; simp at h
    | some r =>
      rw [hf] at h
      dsimp only at h
      by_cases hc : r.is_client = true
      · by_cases hd : r.deleted_at = none
        · rw [if_neg (by simp [hc]), if_neg (by simp [hd])] at h
          obtain ⟨c, hcm, hcond⟩ := List.any_eq_true.mp h
          simp only [activeCond, Bool.and_eq_true, beq_iff_eq,
            Option.isNone_iff_eq_none] at hcond
          exact ⟨c, hcm, hcond.1.1, hcond.1.2, hcond.2⟩
        · rw [if_neg (by simp [hc]),
            if_pos (by simp [Option.isSome_iff_ne_none, hd])] at h
          simp at h
      · rw [if_pos (by simp [Bool.not_eq_true] at hc ⊢; exact hc)] at h
        simp at h
  · rintro ⟨r, hmem, hid, hc, hd⟩
    subst hid
    rw [deleteClient_eq now hnd hmem hc hd]

theorem deleteClient_false_unchanged (cs : List ContactRow) (now id : Nat)
    (h : (deleteClient cs now id).1 = false) : (deleteClient cs now id).2 = cs := by
  rw [deleteClient] at h ⊢
  cases hf : findContact cs id with
  | none => rfl
  | some r =>
    rw [hf] at h
    dsimp only at h ⊢
    by_cases hc : (!r.is_client) = true
    · rw [if_pos hc]
    · rw [if_neg hc] at h ⊢
      by_cases hd : r.deleted_at.isSome = true
      · rw [if_pos hd]
      · rw [if_neg hd] at h ⊢
        have hall := List.any_eq_false.mp h
        have hmap : ∀ c ∈ cs,
            (if activeCond id c then { c with deleted_at := some now, updated_at := now }
             else c) = c := by
          intro c hcm
          rw [if_neg (by simpa using hall c hcm)]
        rw [List.map_congr_left hmap, List.map_id']

theorem restoreClient_true_iff (cs : List ContactRow) (now id : Nat)
    (hnd : (cs.map (·.id)).Nodup) :
    (restoreClient cs now id).1 = true ↔
      ∃ r ∈ cs, r.id = id ∧ r.is_client = true ∧ r.deleted_at ≠ none := by
  constructor
  · intro h
    rw [restoreClient] at h
    cases hf : findContact cs id with
    | none => rw [hf] at h; simp at h
    | some r =>
      rw [hf] at h
      dsimp only at h
      by_cases hc : r.is_client = true
      · by_cases hd : r.deleted_at = none
        · rw [if_neg (by simp [hc]), if_pos (by simp [hd])] at h
          simp at h
        · rw [if_neg (by simp [hc]),
            if_neg (by simp [Option.isNone_iff_eq_none, hd])] at h
          obtain ⟨c, hcm, hcond⟩ := List.any_eq_true.mp h
          simp only [trashedCond, Bool.and_eq_true, beq_iff_eq,
            Option.isSome_iff_ne_none] at hcond
          exact ⟨c, hcm, hcond.1.1, hcond.1.2, hcond.2⟩
      · rw [if_pos (by simp [Bool.not_eq_true] at hc ⊢; exact hc)] at h
        simp at h
  · rintro ⟨r, hmem, hid, hc, hd⟩
    subst hid
    obtain ⟨t, ht⟩ := Option.ne_none_iff_exists'.mp hd
    rw [restoreClient_eq now hnd hmem hc ht]

theorem restoreClient_false_unchanged (cs : List ContactRow) (now id : Nat)
    (h : (restoreClient cs now id).1 = false) : (restoreClient cs now id).2 = cs := by
  rw [restoreClient] at h ⊢
  cases hf : findContact cs id with
  | none => rfl
  | some r =>
    rw [hf] at h
    dsimp only at h ⊢
    by_cases hc : (!r.is_client) = true
    · rw [if_pos hc]
    · rw [if_neg hc] at h ⊢
      by_cases hd : r.deleted_at.isNone = true
      · rw [if_pos hd]
      · rw [if_neg hd] at h ⊢
        have hall := List.any_eq_false.mp h
        have hmap : ∀ c ∈ cs,
            (if trashedCond id c then { c with deleted_at := none, updated_at := now }
             else c) = c := by
          intro c hcm
          rw [if_neg (by simpa using hall c hcm)]
        rw [List.map_congr_left hmap, List.map_id']

theorem permanentDeleteClient_ok_true_iff (db : ClientsDb) (id : Nat)
    (hnd : (db.contacts.map (·.id)).Nodup) :
    (permanentDeleteClient db id).1 = Except.ok true ↔
      ((∃ r ∈ db.contacts, r.id = id ∧ r.is_client = true ∧ r.deleted_at ≠ none) ∧
        contactReferenced db id = false) := by
  constructor
  · intro h
    rw [permanentDeleteClient] at h
    cases hf : findContact db.contacts id with
    | none => rw [hf] at h; simp at h
    | some r =>
      rw [hf] at h
      dsimp only at h
      by_cases hc : r.is_client = true
      · by_cases hd : r.deleted_at = none
        · rw [if_neg (by simp [hc]), if_pos (by simp [hd])] at h
          simp at h
        · rw [if_neg (by simp [hc]),
            if_neg (by simp [Option.isNone_iff_eq_none, hd])] at h
          by_cases hg : (db.contacts.any (trashedCond id) && contactReferenced db id)
              = true
          · rw [if_pos hg] at h
            simp at h
          · rw [if_neg hg] at h
            have hany : db.contacts.any (trashedCond id) = true := Except.ok.inj h
            have href : contactReferenced db id = false := by
              cases hrf : contactReferenced db id with
              | false => rfl
              | true => exact absurd (by rw [hany, hrf]; rfl) hg
            obtain ⟨c, hcm, hcond⟩ := List.any_eq_true.mp hany
            simp only [trashedCond, Bool.and_eq_true, beq_iff_eq,
              Option.isSome_iff_ne_none] at hcond
            exact ⟨⟨c, hcm, hcond.1.1, hcond.1.2, hcond.2⟩, href⟩
      · rw [if_pos (by simp [Bool.not_eq_true] at hc ⊢; exact hc)] at h
        simp at h
  · rintro ⟨⟨r, hmem, hid, hc, hd⟩, href⟩
    subst hid
    obtain ⟨t, ht⟩ := Option.ne_none_iff_exists'.mp hd
    rw [permanentDeleteClient, findContact_of_mem hnd hmem]
    dsimp only
    rw [if_neg (by simp [hc]), if_neg (by simp [ht])]
    have hany : db.contacts.any (trashedCond r.id) = true :=
      List.any_eq_true.mpr ⟨r, hmem, by simp [trashedCond, hc, ht]⟩
    rw [if_neg (by rw [hany, href]; simp)]
    dsimp only
    rw [hany]

theorem permanentDeleteClient_error_iff (db : ClientsDb) (id : Nat)
    (hnd : (db.contacts.map (·.id)).Nodup) :
    (permanentDeleteClient db id).1 = Except.error "foreign key violation" ↔
      ((∃ r ∈ db.contacts, r.id = id ∧ r.is_client = true ∧ r.deleted_at ≠ none) ∧
        contactReferenced db id = true) := by
  constructor
  · intro h
    rw [permanentDeleteClient] at h
    cases hf : findContact db.contacts id with
    | none => rw [hf] at h; simp at h
    | some r =>
      rw [hf] at h
      dsimp only at h
      by_cases hc : r.is_client = true
      · by_cases hd : r.deleted_at = none
        · rw [if_neg (by simp [hc]), if_pos (by simp [hd])] at h
          simp at h
        · rw [if_neg (by simp [hc]),
            if_neg (by simp [Option.isNone_iff_eq_none, hd])] at h
          by_cases hg : (db.contacts.any (trashedCond id) && contactReferenced db id)
              = true
          · have hmem := findContact_mem hf
            have hg2 := hg
            rw [Bool.and_eq_true] at hg2
            exact ⟨⟨r, hmem.1, hmem.2, hc, hd⟩, hg2.2⟩
          · rw [if_neg hg] at h
            simp at h
      · rw [if_pos (by simp [Bool.not_eq_true] at hc ⊢; exact hc)] at h
        simp at h
  · rintro ⟨⟨r, hmem, hid, hc, hd⟩, href⟩
    subst hid
    obtain ⟨t, ht⟩ := Option.ne_none_iff_exists'.mp hd
    rw [permanentDeleteClient, findContact_of_mem hnd hmem]
    dsimp only
    rw [if_neg (by simp [hc]), if_neg (by simp [ht])]
    have hany : db.contacts.any (trashedCond r.id) = true :=
      List.any_eq_true.mpr ⟨r, hmem, by simp [trashedCond, hc, ht]⟩
    rw [if_pos (by rw [hany, href]; rfl)]

theorem permanentDeleteClient_true_deletes (db : ClientsDb) (id : Nat)
    (h : (permanentDeleteClient db id).1 = Except.ok true) :
    (permanentDeleteClient db id).2 =
      { db with contacts := db.contacts.filter (fun c => !trashedCond id c) } := by
  rw [permanentDeleteClient] at h ⊢
  cases hf : findContact db.contacts id with
  | none => rw [hf] at h; simp at h
  | some r =>
    rw [hf] at h
    dsimp only at h ⊢
    by_cases hc : (!r.is_client) = true
    · rw [if_pos hc] at h
      simp at h
    · rw [if_neg hc] at h ⊢
      by_cases hd : r.deleted_at.isNone = true
      · rw [if_pos hd] at h
        simp at h
      · rw [if_neg hd] at h ⊢
        by_cases hg : (db.contacts.any (trashedCond id) && contactReferenced db id)
            = true
        · rw [if_pos hg] at h
          simp at h
        · rw [if_neg hg]

theorem permanentDeleteClient_not_true_unchanged (db : ClientsDb) (id : Nat)
    (h : (permanentDeleteClient db id).1 ≠ Except.ok true) :
    (permanentDeleteClient db id).2 = db := by
  rw [permanentDeleteClient] at h ⊢
  cases hf : findContact db.contacts id with
  | none => rfl
  | some r =>
    rw [hf] at h
    dsimp only at h ⊢
    by_cases hc : (!r.is_client) = true
    · rw [if_pos hc]
    · rw [if_neg hc] at h ⊢
      by_cases hd : r.deleted_at.isNone = true
      · rw [if_pos hd]
      · rw [if_neg hd] at h ⊢
        by_cases hg : (db.contacts.any (trashedCond id) && contactReferenced db id)
            = true
        · rw [if_pos hg]
        · rw [if_neg hg] at h ⊢
          exfalso
          apply h
          have hmem := findContact_mem hf
          have hc2 : r.is_client = true := by
            cases hb : r.is_client with
            | true => rfl
            | false => exact absurd (by rw [hb]; rfl) hc
          have hs : r.deleted_at.isSome = true := by
            cases ho : r.deleted_at with
            | none => exact absurd (by rw [ho]; rfl) hd
            | some t => rfl
          have hcond : trashedCond id r = true := by
            simp [trashedCond, hmem.2, hc2, hs]
          have hany : db.contacts.any (trashedCond id) = true :=
            List.any_eq_true.mpr ⟨r, hmem.1, hcond⟩
          dsimp only
          rw [hany]

theorem ids_map_update (cs : List ContactRow) (p : ContactRow → Bool)
    (f : ContactRow → ContactRow) (hf : ∀ c, (f c).id = c.id) :
    ((cs.map (fun c => if p c then f c else c)).map (·.id)) = cs.map (·.id) := by
  rw [List.map_map]
  apply List.map_congr_left
  intro c _
  by_cases hp : p c = true
  · simp [hp, hf]
  · simp [hp]


theorem clientTrash_roundTrip (cs : List ContactRow) (r : ContactRow)
    (now1 now2 now3 : Nat) (hnd : (cs.map (·.id)).Nodup) (hmem : r ∈ cs)
    (hc : r.is_client = true) (hd : r.deleted_at = none) :
    (deleteClient cs now1 r.id).1 = true ∧
    (restoreClient (deleteClient cs now1 r.id).2 now2 r.id).1 = true ∧
    (deleteClient (restoreClient (deleteClient cs now1 r.id).2 now2 r.id).2 now3 r.id).1
      = true ∧
    ∃ r3 ∈ (deleteClient
        (restoreClient (deleteClient cs now1 r.id).2 now2 r.id).2 now3 r.id).2,
      r3.id = r.id ∧ r3.is_client = true ∧ r3.deleted_at = some now3 := by
  have h1 := deleteClient_eq now1 hnd hmem hc hd
  have hs1 : (deleteClient cs now1 r.id).2 = cs.map (fun c =>
      if activeCond r.id c then { c with deleted_at := some now1, updated_at := now1 }
      else c) := by rw [h1]
  have hb1 : (deleteClient cs now1 r.id).1 = true := by rw [h1]
  have hcondr : activeCond r.id r = true := by simp [activeCond, hc, hd]
  have hr1 : (if activeCond r.id r then
      { r with deleted_at := some now1, updated_at := now1 } else r) =
      { r with deleted_at := some now1, updated_at := now1 } := by rw [if_pos hcondr]
  have hmem1 : ({ r with deleted_at := some now1, updated_at := now1 } : ContactRow) ∈
      (deleteClient cs now1 r.id).2 := by
    rw [hs1]
    exact hr1 ▸ List.mem_map.mpr ⟨r, hmem, rfl⟩
  have hnd1 : (((deleteClient cs now1 r.id).2).map (·.id)).Nodup := by
    rw [hs1, ids_map_update cs (activeCond r.id)
      (fun c => { c with deleted_at := some now1, updated_at := now1 }) (fun c => rfl)]
    exact hnd
  have hid1 : ({ r with deleted_at := some now1, updated_at := now1 } : ContactRow).id
      = r.id := rfl
  have h2 := restoreClient_eq now2 hnd1 hmem1 (show
    ({ r with deleted_at := some now1, updated_at := now1 } : ContactRow).is_client = true
    from hc) (show
    ({ r with deleted_at := some now1, updated_at := now1 } : ContactRow).deleted_at
    = some now1 from rfl)
  rw [hid1] at h2
  have hs2 : (restoreClient (deleteClient cs now1 r.id).2 now2 r.id).2 =
      ((deleteClient cs now1 r.id).2).map (fun c =>
        if trashedCond r.id c then { c with deleted_at := none, updated_at := now2 }
        else c) := by rw [h2]
  have hb2 : (restoreClient (deleteClient cs now1 r.id).2 now2 r.id).1 = true := by
    rw [h2]
  have hcond2 : trashedCond r.id
      ({ r with deleted_at := some now1, updated_at := now1 } : ContactRow) = true := by
    simp [trashedCond, hc]
  have hmem2 : ({ r with deleted_at := none, updated_at := now2 } : ContactRow) ∈
      (restoreClient (deleteClient cs now1 r.id).2 now2 r.id).2 := by
    rw [hs2]
    refine List.mem_map.mpr ⟨{ r with deleted_at := some now1, updated_at := now1 },
      hmem1, ?_⟩
    rw [if_pos hcond2]
  have hnd2 : ((restoreClient (deleteClient cs now1 r.id).2 now2 r.id).2.map
      (·.id)).Nodup := by
    rw [hs2, ids_map_update _ (trashedCond r.id)
      (fun c => { c with deleted_at := none, updated_at := now2 }) (fun c => rfl)]
    exact hnd1
  have h3 := deleteClient_eq now3 hnd2 hmem2 (show
    ({ r with deleted_at := none, updated_at := now2 } : ContactRow).is_client = true
    from hc) (show
    ({ r with deleted_at := none, updated_at := now2 } : ContactRow).deleted_at = none
    from rfl)
  have hid2 : ({ r with deleted_at := none, updated_at := now2 } : ContactRow).id
      = r.id := rfl
  rw [hid2] at h3
  have hb3 : (deleteClient
      (restoreClient (deleteClient cs now1 r.id).2 now2 r.id).2 now3 r.id).1 = true := by
    rw [h3]
  refine ⟨hb1, hb2, hb3, ?_⟩
  have hcond3 : activeCond r.id
      ({ r with deleted_at := none, updated_at := now2 } : ContactRow) = true := by
    simp [activeCond, hc]
  refine ⟨{ r with deleted_at := some now3, updated_at := now3 }, ?_, rfl, hc, rfl⟩
  have : (deleteClient
      (restoreClient (deleteClient cs now1 r.id).2 now2 r.id).2 now3 r.id).2 =
      ((restoreClient (deleteClient cs now1 r.id).2 now2 r.id).2).map (fun c =>
        if activeCond r.id c then { c with deleted_at := some now3, updated_at := now3 }
        else c) := by rw [h3]
  rw [this]
  refine List.mem_map.mpr ⟨{ r with deleted_at := none, updated_at := now2 }, hmem2, ?_⟩
  rw [if_pos hcond3]

/-- C7 (amended): soft-delete state machine of the clients service.  With
distinct contact ids: `deleteClient` succeeds iff the contact exists with
`is_client = true` and `deleted_at = NULL`; `restoreClient` succeeds iff the
contact exists with `is_client = true` and `deleted_at` non-NULL; each of the
two returns false and leaves the table unchanged when its guard fails.
`permanentDeleteClient` hard-deletes the row and returns true iff the
trashed-client guard holds and no lead, activity or client-scoped team task
still references the contact; when the guard holds but a reference remains,
the `DELETE` raises a foreign-key violation (the three foreign keys into
`contacts(id)` carry no `ON DELETE` action) that propagates to the caller,
and whenever `permanentDeleteClient` does not return true the table is
unchanged.  Finally, delete → restore → delete ends with the client trashed
(`deleted_at` set to the last clock reading). -/
theorem clientSoftDelete_state_machine (db : ClientsDb) (now id : Nat)
    (hnd : (db.contacts.map (·.id)).Nodup) :
    ((deleteClient db.contacts now id).1 = true ↔
      ∃ r ∈ db.contacts, r.id = id ∧ r.is_client = true ∧ r.deleted_at = none) ∧
    ((deleteClient db.contacts now id).1 = false →
      (deleteClient db.contacts now id).2 = db.contacts) ∧
    ((restoreClient db.contacts now id).1 = true ↔
      ∃ r ∈ db.contacts, r.id = id ∧ r.is_client = true ∧ r.deleted_at ≠ none) ∧
    ((restoreClient db.contacts now id).1 = false →
      (restoreClient db.contacts now id).2 = db.contacts) ∧
    ((permanentDeleteClient db id).1 = Except.ok true ↔
      ((∃ r ∈ db.contacts, r.id = id ∧ r.is_client = true ∧ r.deleted_at ≠ none) ∧
        contactReferenced db id = false)) ∧
    ((permanentDeleteClient db id).1 = Except.error "foreign key violation" ↔
      ((∃ r ∈ db.contacts, r.id = id ∧ r.is_client = true ∧ r.deleted_at ≠ none) ∧
        contactReferenced db id = true)) ∧
    ((permanentDeleteClient db id).1 = Except.ok true →
      (permanentDeleteClient db id).2 =
        { db with contacts := db.contacts.filter (fun c => !trashedCond id c) }) ∧
    ((permanentDeleteClient db id).1 ≠ Except.ok true →
      (permanentDeleteClient db id).2 = db) ∧
    (∀ now1 now2 now3 r, r ∈ db.contacts → r.id = id → r.is_client = true →
      r.deleted_at = none →
      (deleteClient db.contacts now1 id).1 = true ∧
      (restoreClient (deleteClient db.contacts now1 id).2 now2 id).1 = true ∧
      (deleteClient
        (restoreClient (deleteClient db.contacts now1 id).2 now2 id).2 now3 id).1
        = true ∧
      ∃ r3 ∈ (deleteClient
          (restoreClient (deleteClient db.contacts now1 id).2 now2 id).2 now3 id).2,
        r3.id = id ∧ r3.is_client = true ∧ r3.deleted_at = some now3) := by
  refine ⟨deleteClient_true_iff db.contacts now id hnd,
    deleteClient_false_unchanged db.contacts now id,
    restoreClient_true_iff db.contacts now id hnd,
    restoreClient_false_unchanged db.contacts now id,
    permanentDeleteClient_ok_true_iff db id hnd,
    permanentDeleteClient_error_iff db id hnd,
    permanentDeleteClient_true_deletes db id,
    permanentDeleteClient_not_true_unchanged db id, ?_⟩
  intro now1 now2 now3 r hmem hid hc hd
  subst hid
  exact clientTrash_roundTrip db.contacts r now1 now2 now3 hnd hmem hc hd

/-- Sample store for concrete runs: one active client. -/
def trashSampleContact : ContactRow :=
  { id := 1, name := "A", email := none, phone := none, company := none,
    is_client := true, client_number := some "CLT-000001".data, lead_id := none,
    deleted_at := none, created_at := 0, updated_at := 0 }

/-- One-element contacts store for concrete runs. -/
def trashSample : List ContactRow := [trashSampleContact]

/-- The sample client once trashed (`deleted_at` set). -/
def trashedSampleContact : ContactRow :=
  { trashSampleContact with deleted_at := some 3, updated_at := 3 }

/-- Clients store holding the active sample client with no referencing
rows. -/
def c7activeDb : ClientsDb :=
  { contacts := trashSample, leadContactRefs := [], activityContactRefs := [],
    taskClientRefs := [] }

/-- Clients store holding the trashed sample client with no referencing
rows. -/
def c7trashedFreeDb : ClientsDb :=
  { contacts := [trashedSampleContact], leadContactRefs := [],
    activityContactRefs := [], taskClientRefs := [] }

/-- Clients store holding the trashed sample client while one client-scoped
team task still references it (`team_tasks.client_id = 1`): the concrete
failing input for the C7 counterexample. -/
def c7db : ClientsDb :=
  { contacts := [trashedSampleContact], leadContactRefs := [],
    activityContactRefs := [], taskClientRefs := [1] }

/-- C7 counterexample: the claim says `permanentDeleteClient` succeeds (hard
`DELETE`) if and only if the contact exists with `is_client = true` and
`deleted_at` non-NULL.  Under the schema the `DELETE FROM contacts` raises a
foreign-key violation whenever the contact is still referenced by a lead, an
activity, or a client-scoped team task (`leads.contact_id`,
`activities.contact_id` and `team_tasks.client_id` all reference
`contacts(id)` with no `ON DELETE` action), so on a trashed client with one
referencing team task the call throws instead of succeeding. -/
theorem permanentDelete_guard_counterexample :
    ¬ (∀ (db : ClientsDb) (id : Nat), (db.contacts.map (·.id)).Nodup →
        ((permanentDeleteClient db id).1 = Except.ok true ↔
          ∃ r ∈ db.contacts, r.id = id ∧ r.is_client = true ∧
            r.deleted_at ≠ none)) := by
  intro h
  have hinst := (h c7db 1 (by decide)).mpr
    ⟨trashedSampleContact, by decide, rfl, rfl, by decide⟩
  rw [show (permanentDeleteClient c7db 1).1 = Except.error "foreign key violation"
    from rfl] at hinst
  exact Except.noConfusion hinst

/-- Witness for the amended C7 theorem at concrete stores: on the active
client, delete succeeds, restore fails, and permanent-delete returns false;
`permanentDeleteClient` hard-deletes the trashed unreferenced client, raises
the foreign-key violation and leaves the store unchanged on the trashed
referenced client, and delete → restore → delete ends trashed. -/
theorem clientSoftDelete_state_machine_witness :
    (deleteClient trashSample 5 1).1 = true ∧
    (restoreClient trashSample 5 1).1 = false ∧
    (permanentDeleteClient c7activeDb 1).1 = Except.ok false ∧
    (permanentDeleteClient c7trashedFreeDb 1).1 = Except.ok true ∧
    (permanentDeleteClient c7trashedFreeDb 1).2.contacts = [] ∧
    (permanentDeleteClient c7db 1).1 = Except.error "foreign key violation" ∧
    (permanentDeleteClient c7db 1).2 = c7db ∧
    ∃ r3 ∈ (deleteClient
        (restoreClient (deleteClient trashSample 5 1).2 6 1).2 7 1).2,
      r3.id = 1 ∧ r3.is_client = true ∧ r3.deleted_at = some 7 := by
  have h := clientSoftDelete_state_machine c7activeDb 5 1 (by decide)
  have h2 := clientSoftDelete_state_machine c7trashedFreeDb 5 1 (by decide)
  have h3 := clientSoftDelete_state_machine c7db 5 1 (by decide)
  have hok2 : (permanentDeleteClient c7trashedFreeDb 1).1 = Except.ok true :=
    h2.2.2.2.2.1.mpr ⟨⟨trashedSampleContact, by decide, rfl, rfl, by decide⟩, rfl⟩
  refine ⟨h.1.mpr (by decide), ?_, rfl, hok2, ?_, ?_, ?_, ?_⟩
  · cases hb : (restoreClient trashSample 5 1).1 with
    | false => rfl
    | true => exact absurd (h.2.2.1.mp hb) (by decide)
  · rw [h2.2.2.2.2.2.2.1 hok2]
    rfl
  · exact h3.2.2.2.2.2.1.mpr
      ⟨⟨trashedSampleContact, by decide, rfl, rfl, by decide⟩, rfl⟩
  · exact h3.2.2.2.2.2.2.2.1 (by
      rw [show (permanentDeleteClient c7db 1).1 =
        Except.error "foreign key violation" from rfl]
      exact fun hcon => Except.noConfusion hcon)
  · exact (h.2.2.2.2.2.2.2.2 5 6 7 trashSampleContact (by decide) (by decide)
      (by decide) (by decide)).2.2.2


/-!
Embedding of `src/services/deals.service.ts`: deal rows, the five-stage
pipeline, `listDealsByStage` (with its title override), `createDealFromLead`
and `moveDealToStage`.  Leads and contacts are joined for the company name.
-/

/-- A row of the `leads` table with the columns `chat.service.ts` inserts. -/
structure LeadRow where
  id : Nat
  name : Option String
  email : Option String
  phone : Option String
  contact_id : Option Nat
  source : Option String
  stage : String
  status : String
  verticals : Option String
  notes : Option String
  created_by_email : Option String
  created_at : Nat
  updated_at : Nat
deriving Repr, DecidableEq

/-- Embedding of JS `String.prototype.toLowerCase()` on the ASCII range: maps
`A`-`Z` to `a`-`z` and leaves other characters unchanged.  (The full Unicode
case map of JS never turns a non-ASCII string into one of the five ASCII
stage names, so membership tests against `VALID_STAGES` agree.) -/
def asciiLower (c : Char) : Char :=
  if 'A' ≤ c && c ≤ 'Z' then Char.ofNat (c.toNat + 32) else c

/-- Lower-case a whole string. -/
def strLower (s : String) : String := ⟨s.data.map asciiLower⟩

/-- The fixed list of valid pipeline stages (deals.service.ts:24). -/
def VALID_STAGES : List String := ["new", "qualified", "proposal", "negotiation", "closed"]

/-- A row of the `deals` table (`001_init.sql:75-84`). -/
structure DealRow where
  id : String
  lead_id : Nat
  title : String
  deal_value : Option Int
  stage : String
  notes : Option String
  created_at : Nat
  updated_at : Nat
deriving Repr, DecidableEq

/-- JS `a || b` on an optional string against a string default: `null`,
`undefined` and the empty string fall through to `b`. -/
def jsOrElse (a : Option String) (b : String) : String :=
  match a with
  | none => b
  | some s => if s = "" then b else s

/-- JS `a || null` on an optional number: `0`, `null` and `undefined` all
store SQL `NULL`. -/
def jsOrNullInt (a : Option Int) : Option Int :=
  match a with
  | none => none
  | some v => if v = 0 then none else some v

/-- JS `a || null` on an optional string: the empty string, `null` and
`undefined` all store SQL `NULL`. -/
def jsOrNullStr (a : Option String) : Option String :=
  match a with
  | none => none
  | some s => if s = "" then none else some s

/-- The `c.company` value produced by
`LEFT JOIN leads l ON d.lead_id = l.id LEFT JOIN contacts c ON l.contact_id = c.id`:
`NULL` when the lead, the contact, or the company is missing. -/
def contactCompany (leads : List LeadRow) (contacts : List ContactRow)
    (leadId : Nat) : Option String :=
  match leads.find? (fun l => l.id == leadId) with
  | none => none
  | some l =>
    match l.contact_id with
    | none => none
    | some cid =>
      match contacts.find? (fun c => c.id == cid) with
      | none => none
      | some c => c.company

/-- The title `listDealsByStage` reports for one deal row:
`row.contact_company || row.title` (deals.service.ts:66). -/
def dealTitle (leads : List LeadRow) (contacts : List ContactRow) (d : DealRow) : String :=
  jsOrElse (contactCompany leads contacts d.lead_id) d.title

/-- The mapped deal object `listDealsByStage` builds for one row. -/
def mapDealRow (leads : List LeadRow) (contacts : List ContactRow) (d : DealRow) : DealRow :=
  { d with title := dealTitle leads contacts d }

/-- The five stage buckets returned by `listDealsByStage`. -/
structure DealsByStage where
  new : List DealRow
  qualified : List DealRow
  proposal : List DealRow
  negotiation : List DealRow
  closed : List DealRow
deriving Repr, DecidableEq

/-- Embedding of `listDealsByStage` (deals.service.ts:43-94): map every deal
row (overriding the title with the joined contact company when that is
truthy), then bucket by lower-cased stage; deals whose stage is not one of
the five keys are dropped.  The `ORDER BY d.created_at DESC` sort is applied
first and preserves which bucket each deal lands in. -/
def listDealsByStage (deals : List DealRow) (leads : List LeadRow)
    (contacts : List ContactRow) : DealsByStage :=
  let allDeals := (List.insertionSort (fun a b => b.created_at ≤ a.created_at) deals).map
    (mapDealRow leads contacts)
  { new := allDeals.filter (fun d => strLower d.stage == "new"),
    qualified := allDeals.filter (fun d => strLower d.stage == "qualified"),
    proposal := allDeals.filter (fun d => strLower d.stage == "proposal"),
    negotiation := allDeals.filter (fun d => strLower d.stage == "negotiation"),
    closed := allDeals.filter (fun d => strLower d.stage == "closed") }

/-- Input of `createDealFromLead`. -/
structure CreateDealParams where
  leadId : Nat
  title : Option String
  dealValue : Option Int
  notes : Option String
deriving Repr, DecidableEq

/-- Embedding of `createDealFromLead` (deals.service.ts:114-172): the lead
must exist; the stored title is `params.title || companyName ||
"Deal for Lead #<id>"`; the stored `deal_value` and `notes` go through
`|| null` (so `0` and the empty string store SQL `NULL`); the new deal always
starts at stage `new`. -/
def createDealFromLead (deals : List DealRow) (leads : List LeadRow)
    (contacts : List ContactRow) (newId : String) (now : Nat)
    (params : CreateDealParams) : Except String DealRow × List DealRow :=
  match leads.find? (fun l => l.id == params.leadId) with
  | none =>
    (Except.error ("Lead with id " ++ ⟨natDigits params.leadId⟩ ++ " does not exist"),
     deals)
  | some _ =>
    let companyName := contactCompany leads contacts params.leadId
    let title := jsOrElse params.title
      (jsOrElse companyName ("Deal for Lead #" ++ ⟨natDigits params.leadId⟩))
    let row : DealRow :=
      { id := newId, lead_id := params.leadId, title := title,
        deal_value := jsOrNullInt params.dealValue, stage := "new",
        notes := jsOrNullStr params.notes, created_at := now, updated_at := now }
    (Except.ok row, deals ++ [row])

/-- Embedding of `moveDealToStage` (deals.service.ts:188-227): lower-case the
requested stage and validate it against the five-value enum before touching
the database; then run the guarded `UPDATE … RETURNING *`; an empty result
set means the deal id does not exist. -/
def moveDealToStage (deals : List DealRow) (now : Nat) (dealId stage : String) :
    Except String DealRow × List DealRow :=
  let normalizedStage := strLower stage
  if ¬ VALID_STAGES.contains normalizedStage then
    (Except.error ("Invalid stage: " ++ stage), deals)
  else
    let upd := fun (d : DealRow) =>
      if d.id == dealId then { d with stage := normalizedStage, updated_at := now } else d
    let updated := deals.map upd
    match (deals.filter (fun d => d.id == dealId)).head? with
    | none => (Except.error ("Deal with id " ++ dealId ++ " does not exist"), updated)
    | some d => (Except.ok (upd d), updated)


theorem isOk_error {e : Type} {a : Type} (err : e) :
    (Except.error err : Except e a).isOk = false := rfl

theorem isOk_ok {e : Type} {a : Type} (v : a) :
    (Except.ok v : Except e a).isOk = true := rfl

/-- C6: `moveDealToStage` succeeds exactly when the requested stage is one of
the five pipeline values after case-insensitive normalisation and the deal id
exists; any failure (invalid stage or unknown deal id) leaves the deals table
— in particular the deal's stored stage and `updated_at` — unchanged. -/
theorem moveDealToStage_spec (deals : List DealRow) (now : Nat) (dealId stage : String) :
    ((moveDealToStage deals now dealId stage).1.isOk = true ↔
      (VALID_STAGES.contains (strLower stage) = true ∧ ∃ d ∈ deals, d.id = dealId)) ∧
    ((moveDealToStage deals now dealId stage).1.isOk = false →
      (moveDealToStage deals now dealId stage).2 = deals) := by
  rw [moveDealToStage]
  dsimp only
  by_cases hv : VALID_STAGES.contains (strLower stage) = true
  · rw [if_neg (fun hcon => hcon hv)]
    cases hh : (deals.filter (fun d => d.id == dealId)).head? with
    | none =>
      have hfil : deals.filter (fun d => d.id == dealId) = [] := by
        cases hfl : deals.filter (fun d => d.id == dealId) with
        | nil => rfl
        | cons a t => rw [hfl] at hh; simp at hh
      dsimp only
      constructor
      · constructor
        · intro h
          rw [isOk_error] at h
          exact absurd h (by simp)
        · rintro ⟨-, d, hd, hid⟩
          have hne := List.filter_eq_nil_iff.mp hfil d hd
          simp [hid] at hne
      · intro _
        have hupd : ∀ x ∈ deals, (if x.id == dealId then
            { x with stage := strLower stage, updated_at := now } else x) = x := by
          intro x hx
          have := List.filter_eq_nil_iff.mp hfil x hx
          rw [if_neg (by simpa using this)]
        rw [List.map_congr_left hupd, List.map_id']
    | some d =>
      dsimp only
      have hdm : d ∈ deals.filter (fun x => x.id == dealId) := by
        cases hfl : deals.filter (fun x => x.id == dealId) with
        | nil => rw [hfl] at hh; simp at hh
        | cons a t =>
          rw [hfl] at hh
          simp only [List.head?_cons, Option.some.injEq] at hh
          subst hh
          exact List.mem_cons_self a t
      have hmem := (List.mem_filter.mp hdm).1
      have hid : d.id = dealId := by
        have := (List.mem_filter.mp hdm).2
        simpa using this
      constructor
      · constructor
        · intro _
          exact ⟨hv, d, hmem, hid⟩
        · intro _
          rfl
      · intro h
        rw [isOk_ok] at h
        exact absurd h (by simp)
  · rw [if_pos hv]
    constructor
    · constructor
      · intro h
        rw [isOk_error] at h
        exact absurd h (by simp)
      · rintro ⟨h1, -⟩
        exact absurd h1 hv
    · intro _
      rfl

/-- Sample deals table: one deal at stage `new`. -/
def dealsSample : List DealRow :=
  [{ id := "d1", lead_id := 1, title := "T", deal_value := none, stage := "new",
     notes := none, created_at := 0, updated_at := 0 }]

/-- Witness for C6: on the sample table, `moveDealToStage` with stage `bogus`
fails and changes nothing, and with stage `QUALIFIED` (case-insensitive
match) it succeeds. -/
theorem moveDealToStage_spec_witness :
    (moveDealToStage dealsSample 5 "d1" "bogus").1.isOk = false ∧
    (moveDealToStage dealsSample 5 "d1" "bogus").2 = dealsSample ∧
    (moveDealToStage dealsSample 5 "d1" "QUALIFIED").1.isOk = true := by
  have hb := moveDealToStage_spec dealsSample 5 "d1" "bogus"
  have hq := moveDealToStage_spec dealsSample 5 "d1" "QUALIFIED"
  have h1 : (moveDealToStage dealsSample 5 "d1" "bogus").1.isOk = false := by
    cases hk : (moveDealToStage dealsSample 5 "d1" "bogus").1.isOk with
    | false => rfl
    | true => exact absurd (hb.1.mp hk).1 (by decide)
  exact ⟨h1, hb.2 h1, hq.1.mpr ⟨by decide, by decide⟩⟩

/-- Concrete instance for C10: a lead whose contact has the empty string as
company, and a deal with an explicitly stored title. -/
def c10contact : ContactRow :=
  { id := 7, name := "P", email := none, phone := none, company := some "",
    is_client := false, client_number := none, lead_id := none, deleted_at := none,
    created_at := 0, updated_at := 0 }

/-- Variant contact with a non-empty company name. -/
def c10contactB : ContactRow := { c10contact with company := some "BigCo" }

/-- Lead linking to the C10 contact. -/
def c10lead : LeadRow :=
  { id := 3, name := some "P", email := none, phone := none, contact_id := some 7,
    source := none, stage := "new", status := "new", verticals := none, notes := none,
    created_by_email := none, created_at := 0, updated_at := 0 }

/-- Deal with an explicitly supplied stored title. -/
def c10deal : DealRow :=
  { id := "d9", lead_id := 3, title := "Custom", deal_value := none, stage := "new",
    notes := none, created_at := 0, updated_at := 0 }

/-- C10 counterexample: the claim says a non-null contact company always
overrides the stored title in `listDealsByStage`.  The override is JS
truthiness (`row.contact_company || row.title`), so the non-null empty-string
company does not override: the mapped deal keeps its stored title. -/
theorem listDeals_title_counterexample :
    ¬ (∀ (leads : List LeadRow) (contacts : List ContactRow) (d : DealRow)
        (comp : String),
        contactCompany leads contacts d.lead_id = some comp →
        (mapDealRow leads contacts d).title = comp) := by
  intro h
  have hinst := h [c10lead] [c10contact] c10deal "" (by decide)
  rw [show (mapDealRow [c10lead] [c10contact] c10deal).title = "Custom" from by decide]
    at hinst
  exact absurd hinst (by decide)

/-- C10 (amended): for every deal whose linked contact has a non-null,
non-empty company, `listDealsByStage` reports the deal's title as that
company name even when a different title is stored on the deal row; the
stored title is reported exactly when the joined company is `NULL` (no linked
contact, or contact without company) or the empty string.  Every deal in a
`listDealsByStage` bucket is the mapped version of a stored row.  In
contrast, `createDealFromLead` stores a non-empty supplied title verbatim,
letting it take precedence over the company name. -/
theorem listDeals_title_override (leads : List LeadRow) (contacts : List ContactRow)
    (d : DealRow) :
    (∀ comp, contactCompany leads contacts d.lead_id = some comp → comp ≠ "" →
      (mapDealRow leads contacts d).title = comp) ∧
    ((contactCompany leads contacts d.lead_id = none ∨
      contactCompany leads contacts d.lead_id = some "") →
      (mapDealRow leads contacts d).title = d.title) ∧
    (∀ (deals : List DealRow) (d2 : DealRow),
      d2 ∈ (listDealsByStage deals leads contacts).new →
      ∃ d0 ∈ deals, d2 = mapDealRow leads contacts d0) ∧
    (∀ (deals : List DealRow) (newId : String) (now : Nat)
      (params : CreateDealParams) (t : String) (row : DealRow),
      params.title = some t → t ≠ "" →
      (createDealFromLead deals leads contacts newId now params).1 = Except.ok row →
      row.title = t) := by
  refine ⟨?_, ?_, ?_, ?_⟩
  · intro comp hcomp hne
    rw [mapDealRow]
    show dealTitle leads contacts d = comp
    rw [dealTitle, hcomp, jsOrElse]
    rw [if_neg hne]
  · intro hcase
    rw [mapDealRow]
    show dealTitle leads contacts d = d.title
    rcases hcase with h | h
    · rw [dealTitle, h]
      rfl
    · rw [dealTitle, h, jsOrElse]
      rw [if_pos rfl]
  · intro deals d2 hd2
    rw [listDealsByStage] at hd2
    dsimp only at hd2
    have hmap := (List.mem_filter.mp hd2).1
    obtain ⟨d0, hd0, heq⟩ := List.mem_map.mp hmap
    refine ⟨d0, ?_, heq.symm⟩
    exact ((List.perm_insertionSort
      (fun a b => b.created_at ≤ a.created_at) deals).mem_iff).mp hd0
  · intro deals newId now params t row ht hne hok
    rw [createDealFromLead] at hok
    cases hf : leads.find? (fun l => l.id == params.leadId) with
    | none => rw [hf] at hok; simp at hok
    | some l =>
      rw [hf] at hok
      dsimp only at hok
      injection hok with hrow
      rw [← hrow]
      show jsOrElse params.title _ = t
      rw [ht, jsOrElse]
      rw [if_neg hne]

/-- Witness for the amended C10 theorem: with a non-empty company `BigCo` the
reported title is `BigCo` even though the stored title is `Custom`, and with
the empty-string company the stored title is reported. -/
theorem listDeals_title_override_witness :
    (mapDealRow [c10lead] [c10contactB] c10deal).title = "BigCo" ∧
    (mapDealRow [c10lead] [c10contact] c10deal).title = "Custom" :=
  ⟨(listDeals_title_override [c10lead] [c10contactB] c10deal).1 "BigCo"
      (by decide) (by decide),
   (listDeals_title_override [c10lead] [c10contact] c10deal).2.1 (Or.inr (by decide))⟩


/-!
Embedding of `createLead` and `deleteLead` from `src/services/chat.service.ts`.
`createLead` runs contact insert and lead insert inside one transaction with
`ROLLBACK` on any failure; the rollback snapshot is the pre-transaction state.
`deleteLead` deletes the lead row relying on a CASCADE that the schema of
`001_init.sql` does not declare.
-/

/-- Contact fields of the `createLead` input. -/
structure CreateContactInput where
  name : String
  email : Option String
  phone : Option String
  company : Option String
deriving Repr, DecidableEq

/-- Input of `createLead`. -/
structure CreateLeadInput where
  contact : CreateContactInput
  source : Option String
  stage : Option String
  verticals : Option String
  created_by_email : Option String
deriving Repr, DecidableEq

/-- Contacts and leads as the chat service sees them. -/
structure ChatDb where
  contacts : List ContactRow
  leads : List LeadRow
deriving Repr, DecidableEq

/-- The joined result `createLead` returns: the lead row spread together with
its contact. -/
structure LeadWithContact where
  lead : LeadRow
  contact : ContactRow
deriving Repr, DecidableEq

/-- Embedding of `createContact` (chat.service.ts:302-332) on the transaction
client: insert the contact row (optional fields through JS `|| null`;
`is_client` defaults to false per `ALTER TABLE … ADD COLUMN is_client BOOLEAN
DEFAULT false`) and return it. -/
def createContact (db : ChatDb) (nextId now : Nat) (c : CreateContactInput) :
    ChatDb × ContactRow :=
  let row : ContactRow :=
    { id := nextId, name := c.name, email := jsOrStr c.email, phone := jsOrStr c.phone,
      company := jsOrStr c.company, is_client := false, client_number := none,
      lead_id := none, deleted_at := none, created_at := now, updated_at := now }
  ({ db with contacts := db.contacts ++ [row] }, row)

/-- Failure injection for the two INSERT statements inside the `createLead`
transaction: `none` means the statement succeeds, `some e` means the database
raises error `e` at that statement. -/
structure LeadTxFaults where
  contactErr : Option String
  leadErr : Option String
deriving Repr, DecidableEq

/-- Embedding of `createLead` (chat.service.ts:340-399): `BEGIN`; insert the
contact; insert the lead copying the contact's name/email/phone, with the
stage defaulted through JS `||` and the status hard-coded to `new`; `COMMIT`
and return the lead joined with its contact.  On any step failure the catch
block issues `ROLLBACK` — restoring the pre-transaction state — and
re-throws the error. -/
def createLead (db : ChatDb) (contactId leadId now : Nat) (leadData : CreateLeadInput)
    (faults : LeadTxFaults) : Except String LeadWithContact × ChatDb :=
  match faults.contactErr with
  | some e => (Except.error e, db)
  | none =>
    let db1 := (createContact db contactId now leadData.contact).1
    let contact := (createContact db contactId now leadData.contact).2
    match faults.leadErr with
    | some e => (Except.error e, db)
    | none =>
      let lead : LeadRow :=
        { id := leadId, name := some contact.name, email := contact.email,
          phone := contact.phone, contact_id := some contact.id,
          source := jsOrStr leadData.source,
          stage := jsOrElse leadData.stage "new",
          status := "new", verticals := jsOrStr leadData.verticals, notes := none,
          created_by_email := jsOrStr leadData.created_by_email,
          created_at := now, updated_at := now }
      (Except.ok { lead := lead, contact := contact },
       { db1 with leads := db1.leads ++ [lead] })

/-- C2: `createLead` is atomic.  When the lead insert fails after the contact
insert succeeded, the transaction rolls back: the returned state is exactly
the pre-call state (no contact row persists) and the underlying error is
propagated.  On success the returned lead is joined with its same-transaction
contact and both rows are in the post state.  Consequently the invariant
"every lead has a contact" is preserved by every outcome. -/
theorem createLead_atomic (db : ChatDb) (contactId leadId now : Nat)
    (leadData : CreateLeadInput) :
    (∀ e, (createLead db contactId leadId now leadData ⟨none, some e⟩).1 =
        Except.error e ∧
      (createLead db contactId leadId now leadData ⟨none, some e⟩).2 = db) ∧
    (∀ res, (createLead db contactId leadId now leadData ⟨none, none⟩).1 =
        Except.ok res →
      res.lead.contact_id = some res.contact.id ∧
      res.contact ∈ (createLead db contactId leadId now leadData ⟨none, none⟩).2.contacts ∧
      res.lead ∈ (createLead db contactId leadId now leadData ⟨none, none⟩).2.leads) ∧
    (∀ faults : LeadTxFaults,
      (∀ l ∈ db.leads, ∃ c ∈ db.contacts, l.contact_id = some c.id) →
      ∀ l ∈ (createLead db contactId leadId now leadData faults).2.leads,
        ∃ c ∈ (createLead db contactId leadId now leadData faults).2.contacts,
          l.contact_id = some c.id) := by
  refine ⟨?_, ?_, ?_⟩
  · intro e
    exact ⟨rfl, rfl⟩
  · intro res hres
    rw [createLead] at hres
    dsimp only at hres
    injection hres with hres
    subst hres
    refine ⟨rfl, ?_, ?_⟩
    · rw [createLead]
      dsimp only [createContact]
      exact List.mem_append.mpr (Or.inr (List.mem_singleton.mpr rfl))
    · rw [createLead]
      dsimp only [createContact]
      exact List.mem_append.mpr (Or.inr (List.mem_singleton.mpr rfl))
  · intro faults hinv l hl
    rcases faults with ⟨cErr, lErr⟩
    cases cErr with
    | some e => exact hinv l hl
    | none =>
      cases lErr with
      | some e => exact hinv l hl
      | none =>
        rw [createLead] at hl
        dsimp only [createContact] at hl
        rcases List.mem_append.mp hl with h | h
        · obtain ⟨c, hc, hcid⟩ := hinv l h
          refine ⟨c, ?_, hcid⟩
          rw [createLead]
          dsimp only [createContact]
          exact List.mem_append.mpr (Or.inl hc)
        · rw [List.mem_singleton.mp h]
          refine ⟨(createContact db contactId now leadData.contact).2, ?_, rfl⟩
          rw [createLead]
          dsimp only [createContact]
          exact List.mem_append.mpr (Or.inr (List.mem_singleton.mpr rfl))

/-- Sample input for concrete `createLead` runs. -/
def sampleLeadInput : CreateLeadInput :=
  { contact := { name := "Jane", email := some "j@x.io", phone := none, company := none },
    source := some "web", stage := none, verticals := none, created_by_email := none }

/-- Witness for C2: on an empty store, a forced lead-insert failure returns
the error and leaves the store empty, and the success path links lead to
contact. -/
theorem createLead_atomic_witness :
    ((createLead ⟨[], []⟩ 1 1 0 sampleLeadInput ⟨none, some "boom"⟩).1 =
      Except.error "boom" ∧
     (createLead ⟨[], []⟩ 1 1 0 sampleLeadInput ⟨none, some "boom"⟩).2 = ⟨[], []⟩) ∧
    ((createLead ⟨[], []⟩ 1 1 0 sampleLeadInput ⟨none, none⟩).1.isOk = true) := by
  have h := createLead_atomic ⟨[], []⟩ 1 1 0 sampleLeadInput
  exact ⟨h.1 "boom", by decide⟩


/-- A row of the `activities` table (`001_init.sql:64-71`). -/
structure ActivityRow where
  id : Nat
  lead_id : Option Nat
  contact_id : Option Nat
  activity_type : String
  description : Option String
  created_at : Nat
deriving Repr, DecidableEq

/-- A row of the `cold_calls` table (`001_init.sql:38-46`). -/
structure ColdCallRow where
  id : Nat
  lead_id : Option Nat
  call_date : Nat
  duration : Option Nat
  outcome : Option String
  notes : Option String
  created_at : Nat
deriving Repr, DecidableEq

/-- A row of the `onsite_visits` table (`001_init.sql:50-60` plus the
in/out-time migration). -/
structure OnsiteVisitRow where
  id : Nat
  lead_id : Option Nat
  visit_date : Nat
  address : Option String
  visit_type : Option String
  status : Option String
  notes : Option String
  in_time : Option String
  out_time : Option String
  created_at : Nat
  updated_at : Nat
deriving Repr, DecidableEq

/-- Database state for the lead-deletion path: the three per-lead logs, plus
the other tables whose foreign keys reference `leads(id)` with the default
NO ACTION (`deals`, `pipeline`, `team_tasks`, `automation_runs`), abstracted
to the multiset of lead ids they reference.  (`notifications.related_lead_id`
is ON DELETE SET NULL and never blocks a delete.) -/
structure CrmDb where
  leads : List LeadRow
  activities : List ActivityRow
  coldCalls : List ColdCallRow
  onsiteVisits : List OnsiteVisitRow
  otherLeadRefs : List Nat
deriving Repr, DecidableEq

/-- Postgres semantics of `DELETE FROM leads WHERE id = $1` under the schema
of `001_init.sql`: every foreign key referencing `leads(id)` is declared
without an `ON DELETE` action (NO ACTION), so the statement raises a
foreign-key violation whenever any child row still references the lead;
otherwise the lead row is removed and nothing else changes. -/
def deleteLeadRow (db : CrmDb) (leadId : Nat) : Except String CrmDb :=
  if db.activities.any (fun a => a.lead_id == some leadId) ||
     db.coldCalls.any (fun c => c.lead_id == some leadId) ||
     db.onsiteVisits.any (fun v => v.lead_id == some leadId) ||
     db.otherLeadRefs.any (fun i => i == leadId) then
    Except.error "foreign key violation"
  else
    Except.ok { db with leads := db.leads.filter (fun l => !(l.id == leadId)) }

/-- Embedding of `deleteLead` (chat.service.ts:1197-1226): `BEGIN`; check the
lead exists (`ROLLBACK` and return false when not); `DELETE FROM leads` —
the code's comment expects the three logs to disappear "via CASCADE"; then
`COMMIT`, or `ROLLBACK` and re-throw when the delete raises.  `rowCount > 0`
holds exactly when the existence check passed. -/
def deleteLead (db : CrmDb) (leadId : Nat) : Except String Bool × CrmDb :=
  if ¬ db.leads.any (fun l => l.id == leadId) then (Except.ok false, db)
  else
    match deleteLeadRow db leadId with
    | Except.error e => (Except.error e, db)
    | Except.ok db2 => (Except.ok true, db2)

/-- C3 (code bug): the schema declares `activities.lead_id`,
`cold_calls.lead_id` and `onsite_visits.lead_id` as plain
`REFERENCES leads(id)` with no `ON DELETE CASCADE`, so `deleteLead` on a lead
that still has a child row raises a foreign-key violation, rolls back, and
deletes nothing — contradicting the claim (and the code's own comment) that
the lead and its three logs are cascade-deleted. -/
theorem deleteLead_fk_violation :
    (∀ (db : CrmDb) (leadId : Nat),
      db.leads.any (fun l => l.id == leadId) = true →
      db.activities.any (fun a => a.lead_id == some leadId) = true →
      (deleteLead db leadId).1 = Except.error "foreign key violation" ∧
      (deleteLead db leadId).2 = db) := by
  intro db leadId hlead hact
  rw [deleteLead, if_neg (fun hcon => hcon hlead)]
  rw [deleteLeadRow, if_pos (by rw [hact]; simp)]
  exact ⟨rfl, rfl⟩

/-- A lead with one activity: the concrete failing input for C3. -/
def c3db : CrmDb :=
  { leads := [{ id := 1, name := some "Jane", email := none, phone := none,
                contact_id := some 1, source := none, stage := "new", status := "new",
                verticals := none, notes := none, created_by_email := none,
                created_at := 0, updated_at := 0 }],
    activities := [{ id := 1, lead_id := some 1, contact_id := none,
                     activity_type := "note", description := some "call back",
                     created_at := 0 }],
    coldCalls := [], onsiteVisits := [], otherLeadRefs := [] }

/-- Witness for C3: evaluating `deleteLead` at the failing input — a lead
with one activity — yields the foreign-key error and leaves the database
unchanged, instead of cascade-deleting the lead and its logs. -/
theorem deleteLead_fk_violation_witness :
    (deleteLead c3db 1).1 = Except.error "foreign key violation" ∧
    (deleteLead c3db 1).2 = c3db :=
  deleteLead_fk_violation c3db 1 (by decide) (by decide)


/-!
Embedding of the tasks service (`createTask` / `updateTask`,
`src/unnamed/part_016` after the attachments module).  The primary task write
is modelled exactly; the two best-effort side effects (descriptive activity
row, assignee notification) run after it with explicit failure injection, and
every injected failure is swallowed the way the service's try/catch blocks
swallow it.
-/

/-- The contact columns the tasks service reads for its client-scoped side
effect (`SELECT id, lead_id FROM contacts WHERE id = $1 AND is_client`). -/
structure ClientRef where
  id : String
  lead_id : Option Nat
  is_client : Bool
deriving Repr, DecidableEq

/-- A row of `team_tasks` (001_init.sql:101-111 plus the client_id and
description columns used by the service). -/
structure TaskRow where
  id : Nat
  lead_id : Option Nat
  client_id : Option String
  assigned_to_email : String
  title : String
  description : Option String
  due_date : Option String
  status : String
  priority : String
  created_at : Nat
  updated_at : Nat
deriving Repr, DecidableEq

/-- A row of `notifications` (004_add_notifications.sql). -/
structure NotificationRow where
  id : Nat
  user_email : String
  type : String
  title : String
  message : Option String
  related_task_id : Option Nat
  related_lead_id : Option Nat
  is_read : Bool
  created_at : Nat
  read_at : Option Nat
deriving Repr, DecidableEq

/-- The activity row the task side effect writes (`lead_id` or a client
contact id, type `task`, a synthesized description). -/
structure TaskActivityRow where
  lead_id : Option Nat
  contact_id : Option String
  activity_type : String
  description : String
  created_at : Nat
deriving Repr, DecidableEq

/-- Database state for the tasks service. -/
structure TasksDb where
  tasks : List TaskRow
  taskActivities : List TaskActivityRow
  notifications : List NotificationRow
  clients : List ClientRef
deriving Repr, DecidableEq

/-- Failure injection for the best-effort side effects: `none` means the
statement succeeds. -/
structure TaskFaults where
  activityErr : Option String
  clientLookupErr : Option String
  markReadErr : Option String
  notificationErr : Option String
deriving Repr, DecidableEq

/-- All side effects succeed. -/
def noTaskFaults : TaskFaults := ⟨none, none, none, none⟩

/-- JS truthiness of an optional number: `0`, `null`, `undefined` are falsy. -/
def truthyNat : Option Nat → Bool
  | none => false
  | some n => !(n == 0)

/-- JS truthiness of an optional string: the empty string, `null`,
`undefined` are falsy. -/
def truthyStr : Option String → Bool
  | none => false
  | some s => !(s == "")

/-- Valid task status values. -/
def VALID_STATUS : List String := ["open", "in_progress", "done"]

/-- Valid task priority values. -/
def VALID_PRIORITY : List String := ["low", "normal", "high"]

/-- `params.priority && VALID_PRIORITY.includes(params.priority) ?
params.priority : 'normal'`. -/
def priorityOf (p : Option String) : String :=
  if truthyStr p && VALID_PRIORITY.contains (p.getD "") then p.getD "" else "normal"

/-- Input of `createTask`. -/
structure CreateTaskParams where
  leadId : Option Nat
  clientId : Option String
  assignedToEmail : String
  title : String
  description : Option String
  dueDate : Option String
  priority : Option String
deriving Repr, DecidableEq

/-- The description string of the task activity:
`Task created: "<title>"` plus ` - <description>` when truthy. -/
def taskActivityDescr (params : CreateTaskParams) : String :=
  "Task created: \"" ++ params.title ++ "\"" ++
    (if truthyStr params.description then " - " ++ params.description.getD "" else "")

/-- The activity rows the `createTask` side effect appends (part_016:278-336):
one try block covering the lead branch, or — for client tasks — the client
lookup and the insert keyed on the client's stored `lead_id`; any failure
inside the block is logged and swallowed, appending nothing. -/
def taskActivityRowsFor (db : TasksDb) (now : Nat) (params : CreateTaskParams)
    (faults : TaskFaults) : List TaskActivityRow :=
  match faults.activityErr with
  | some _ => []
  | none =>
    if truthyNat params.leadId then
      [{ lead_id := params.leadId, contact_id := none, activity_type := "task",
         description := taskActivityDescr params, created_at := now }]
    else if truthyStr params.clientId then
      match faults.clientLookupErr with
      | some _ => []
      | none =>
        match db.clients.find? (fun c => c.id == params.clientId.getD "" && c.is_client) with
        | some client =>
          if truthyNat client.lead_id then
            [{ lead_id := client.lead_id, contact_id := none, activity_type := "task",
               description := taskActivityDescr params, created_at := now }]
          else
            [{ lead_id := none, contact_id := params.clientId, activity_type := "task",
               description := taskActivityDescr params, created_at := now }]
        | none =>
          [{ lead_id := none, contact_id := params.clientId, activity_type := "task",
             description := taskActivityDescr params, created_at := now }]
    else []

/-- State change of the activity side effect: append the produced rows. -/
def createTaskActivity (db : TasksDb) (now : Nat) (params : CreateTaskParams)
    (faults : TaskFaults) : TasksDb :=
  { db with taskActivities := db.taskActivities ++ taskActivityRowsFor db now params faults }

/-- The notification rows the `createTask` side effect appends
(part_016:338-351), through `createNotification`; failure logged and
swallowed, appending nothing. -/
def taskNotificationRowsFor (notifId now taskId : Nat) (params : CreateTaskParams)
    (faults : TaskFaults) : List NotificationRow :=
  match faults.notificationErr with
  | some _ => []
  | none =>
    [{ id := notifId, user_email := params.assignedToEmail, type := "task_assigned",
       title := "New Task Assigned",
       message := some ("You have been assigned a new task: \"" ++ params.title ++ "\""),
       related_task_id := jsOrNat (some taskId), related_lead_id := jsOrNat params.leadId,
       is_read := false, created_at := now, read_at := none }]

/-- State change of the notification side effect: append the produced rows. -/
def createTaskNotification (db : TasksDb) (notifId now : Nat) (taskId : Nat)
    (params : CreateTaskParams) (faults : TaskFaults) : TasksDb :=
  { db with notifications := db.notifications ++
      taskNotificationRowsFor notifId now taskId params faults }

/-- Embedding of `createTask` (part_016:219-354): validate that a JS-truthy
`leadId` xor a JS-truthy `clientId` is present, insert the task row (status
defaults to `open`), then run the two best-effort side effects. -/
def createTask (db : TasksDb) (taskId notifId now : Nat) (params : CreateTaskParams)
    (faults : TaskFaults) : Except String TaskRow × TasksDb :=
  if !truthyNat params.leadId && !truthyStr params.clientId then
    (Except.error "Either leadId or clientId must be provided", db)
  else if truthyNat params.leadId && truthyStr params.clientId then
    (Except.error "Cannot assign task to both lead and client. Please provide either leadId or clientId, not both.", db)
  else
    let row : TaskRow :=
      { id := taskId, lead_id := jsOrNat params.leadId,
        client_id := jsOrStr params.clientId,
        assigned_to_email := params.assignedToEmail, title := params.title,
        description := jsOrStr params.description, due_date := jsOrStr params.dueDate,
        status := "open", priority := priorityOf params.priority,
        created_at := now, updated_at := now }
    let db1 := { db with tasks := db.tasks ++ [row] }
    let db2 := createTaskActivity db1 now params faults
    let db3 := createTaskNotification db2 notifId now taskId params faults
    (Except.ok row, db3)


/-- Input of `updateTask`: outer `none` is an absent (undefined) field; for
`description`/`dueDate` the provided value itself goes through `|| null`. -/
structure UpdateTaskParams where
  taskId : Nat
  title : Option String
  assignedToEmail : Option String
  description : Option (Option String)
  dueDate : Option (Option String)
  status : Option String
  priority : Option String
deriving Repr, DecidableEq

/-- The row produced by the dynamic `UPDATE … SET` of `updateTask`: only
provided fields change, `updated_at` always does. -/
def applyTaskUpdate (params : UpdateTaskParams) (now : Nat) (t : TaskRow) : TaskRow :=
  { t with
    title := params.title.getD t.title,
    assigned_to_email := params.assignedToEmail.getD t.assigned_to_email,
    description := match params.description with
      | some v => jsOrStr v
      | none => t.description,
    due_date := match params.dueDate with
      | some v => jsOrStr v
      | none => t.due_date,
    status := params.status.getD t.status,
    priority := params.priority.getD t.priority,
    updated_at := now }

/-- Embedding of `updateTask` (part_016:399-517): validate provided
status/priority (in field order, before the write), reject an empty patch,
run the guarded `UPDATE … RETURNING *` (missing id is an error), then run
the best-effort notification side effect — client lookup failing silently,
mark-old-notifications-read failing silently, notification insert failing
silently — and return the updated task. -/
def updateTask (db : TasksDb) (notifId now : Nat) (params : UpdateTaskParams)
    (faults : TaskFaults) : Except String TaskRow × TasksDb :=
  if params.status.isSome && !(VALID_STATUS.contains (params.status.getD "")) then
    (Except.error ("Invalid status: " ++ params.status.getD ""), db)
  else if params.priority.isSome && !(VALID_PRIORITY.contains (params.priority.getD "")) then
    (Except.error ("Invalid priority: " ++ params.priority.getD ""), db)
  else if params.title = none ∧ params.assignedToEmail = none ∧
      params.description = none ∧ params.dueDate = none ∧
      params.status = none ∧ params.priority = none then
    (Except.error "At least one field must be provided for update", db)
  else
    let updatedTasks := db.tasks.map (fun t =>
      if t.id == params.taskId then applyTaskUpdate params now t else t)
    match (db.tasks.filter (fun t => t.id == params.taskId)).head? with
    | none =>
      (Except.error ("Task with id " ++ ⟨natDigits params.taskId⟩ ++ " does not exist"),
       { db with tasks := updatedTasks })
    | some t0 =>
      let t := applyTaskUpdate params now t0
      let db1 := { db with tasks := updatedTasks }
      let assigneeEmail := match params.assignedToEmail with
        | some e => e
        | none => t.assigned_to_email
      if assigneeEmail == "" then (Except.ok t, db1)
      else
        let leadId : Option Nat :=
          if truthyNat t.lead_id then t.lead_id
          else if truthyStr t.client_id then
            match faults.clientLookupErr with
            | some _ => none
            | none =>
              match db.clients.find? (fun c =>
                  c.id == t.client_id.getD "" && c.is_client) with
              | some client => if truthyNat client.lead_id then client.lead_id else none
              | none => none
          else none
        let db2 :=
          match faults.markReadErr with
          | some _ => db1
          | none =>
            if !(t.id == 0) then
              { db1 with notifications := db1.notifications.map (fun n =>
                  if n.related_task_id == some t.id && n.user_email == assigneeEmail &&
                     n.is_read == false &&
                     (n.type == "task_assigned" || n.type == "task_updated") then
                    { n with is_read := true, read_at := some now }
                  else n) }
            else db1
        let db3 :=
          match faults.notificationErr with
          | some _ => db2
          | none =>
            { db2 with notifications := db2.notifications ++
                [{ id := notifId, user_email := assigneeEmail, type := "task_updated",
                   title := "Task Updated",
                   message := some ("Task \"" ++ t.title ++ "\" has been updated"),
                   related_task_id := jsOrNat (some t.id), related_lead_id := jsOrNat leadId,
                   is_read := false, created_at := now, read_at := none }] }
        (Except.ok t, db3)


theorem jsOrNat_falsy {o : Option Nat} (h : truthyNat o = false) : jsOrNat o = none := by
  cases o with
  | none => rfl
  | some n =>
    simp only [truthyNat, Bool.not_eq_false'] at h
    simp only [jsOrNat]
    rw [if_pos (by simpa using h)]

theorem jsOrNat_truthy {o : Option Nat} (h : truthyNat o = true) : jsOrNat o ≠ none := by
  cases o with
  | none => simp [truthyNat] at h
  | some n =>
    simp only [truthyNat, Bool.not_eq_true', beq_eq_false_iff_ne] at h
    simp only [jsOrNat]
    rw [if_neg h]
    simp

theorem jsOrStr_falsy {o : Option String} (h : truthyStr o = false) : jsOrStr o = none := by
  cases o with
  | none => rfl
  | some v =>
    simp only [truthyStr, Bool.not_eq_false'] at h
    simp only [jsOrStr]
    rw [if_pos (by simpa using h)]

theorem jsOrStr_truthy {o : Option String} (h : truthyStr o = true) : jsOrStr o ≠ none := by
  cases o with
  | none => simp [truthyStr] at h
  | some v =>
    simp only [truthyStr, Bool.not_eq_true', beq_eq_false_iff_ne] at h
    simp only [jsOrStr]
    rw [if_neg h]
    simp

/-- A stored task references exactly one of a lead and a client. -/
def exclusiveTask (t : TaskRow) : Prop :=
  (t.lead_id ≠ none ∧ t.client_id = none) ∨ (t.lead_id = none ∧ t.client_id ≠ none)

/-- Sample empty tasks store. -/
def tasksDb0 : TasksDb := ⟨[], [], [], []⟩

/-- A well-formed `createTask` input with a lead. -/
def cparams0 : CreateTaskParams :=
  { leadId := some 5, clientId := none, assignedToEmail := "a@b.c", title := "T",
    description := none, dueDate := none, priority := none }

/-- C8 counterexample: the claim says that whenever exactly one of
`leadId`/`clientId` is provided the task is created.  `createTask` tests JS
truthiness, not presence: `leadId = 0` (a provided number) is falsy, so the
call is rejected with "Either leadId or clientId must be provided". -/
theorem createTask_exclusivity_counterexample :
    ¬ (∀ (db : TasksDb) (taskId notifId now : Nat) (params : CreateTaskParams)
        (faults : TaskFaults),
        params.leadId.isSome = true → params.clientId = none →
        (createTask db taskId notifId now params faults).1.isOk = true) := by
  intro h
  have hinst := h tasksDb0 1 1 0 { cparams0 with leadId := some 0 } noTaskFaults rfl rfl
  exact absurd hinst (by decide)

theorem createTask_error_neither (db : TasksDb) (taskId notifId now : Nat)
    (params : CreateTaskParams) (faults : TaskFaults)
    (h1 : truthyNat params.leadId = false) (h2 : truthyStr params.clientId = false) :
    (createTask db taskId notifId now params faults).1.isOk = false ∧
    (createTask db taskId notifId now params faults).2 = db := by
  rw [createTask, if_pos (by simp [h1, h2])]
  exact ⟨rfl, rfl⟩

theorem createTask_error_both (db : TasksDb) (taskId notifId now : Nat)
    (params : CreateTaskParams) (faults : TaskFaults)
    (h1 : truthyNat params.leadId = true) (h2 : truthyStr params.clientId = true) :
    (createTask db taskId notifId now params faults).1.isOk = false ∧
    (createTask db taskId notifId now params faults).2 = db := by
  rw [createTask, if_neg (by simp [h1]), if_pos (by simp [h1, h2])]
  exact ⟨rfl, rfl⟩

theorem createTask_ok (db : TasksDb) (taskId notifId now : Nat)
    (params : CreateTaskParams) (faults : TaskFaults)
    (hne : truthyNat params.leadId ≠ truthyStr params.clientId) :
    ∃ t, (createTask db taskId notifId now params faults).1 = Except.ok t ∧
      (createTask db taskId notifId now params faults).2.tasks = db.tasks ++ [t] ∧
      exclusiveTask t := by
  have hcond1 : (!truthyNat params.leadId && !truthyStr params.clientId) = false := by
    cases hl : truthyNat params.leadId <;> cases hc : truthyStr params.clientId <;>
      simp_all
  have hcond2 : (truthyNat params.leadId && truthyStr params.clientId) = false := by
    cases hl : truthyNat params.leadId <;> cases hc : truthyStr params.clientId <;>
      simp_all
  rw [createTask, if_neg (by simp [hcond1]), if_neg (by simp [hcond2])]
  refine ⟨_, rfl, rfl, ?_⟩
  cases hl : truthyNat params.leadId with
  | true =>
    have hc : truthyStr params.clientId = false := by
      cases hcv : truthyStr params.clientId
      · rfl
      · rw [hl, hcv] at hne; exact absurd rfl hne
    exact Or.inl ⟨jsOrNat_truthy hl, jsOrStr_falsy hc⟩
  | false =>
    have hc : truthyStr params.clientId = true := by
      cases hcv : truthyStr params.clientId
      · rw [hl, hcv] at hne; exact absurd rfl hne
      · rfl
    exact Or.inr ⟨jsOrNat_falsy hl, jsOrStr_truthy hc⟩

/-- C8 (amended): `createTask` rejects the call (no task row inserted, state
unchanged) when neither of `leadId`/`clientId` is JS-truthy — a missing
value, `leadId = 0`, or `clientId = ''` — and also when both are truthy;
when exactly one is truthy the task is created, and the created row has
exactly one of `lead_id`/`client_id` set, so the stored-task exclusivity
invariant is preserved. -/
theorem createTask_exclusivity (db : TasksDb) (taskId notifId now : Nat)
    (params : CreateTaskParams) (faults : TaskFaults) :
    (truthyNat params.leadId = false → truthyStr params.clientId = false →
      (createTask db taskId notifId now params faults).1.isOk = false ∧
      (createTask db taskId notifId now params faults).2 = db) ∧
    (truthyNat params.leadId = true → truthyStr params.clientId = true →
      (createTask db taskId notifId now params faults).1.isOk = false ∧
      (createTask db taskId notifId now params faults).2 = db) ∧
    (truthyNat params.leadId ≠ truthyStr params.clientId →
      ∃ t, (createTask db taskId notifId now params faults).1 = Except.ok t ∧
        (createTask db taskId notifId now params faults).2.tasks = db.tasks ++ [t] ∧
        exclusiveTask t) ∧
    ((∀ t ∈ db.tasks, exclusiveTask t) →
      ∀ t ∈ (createTask db taskId notifId now params faults).2.tasks, exclusiveTask t) := by
  refine ⟨createTask_error_neither db taskId notifId now params faults,
    createTask_error_both db taskId notifId now params faults,
    createTask_ok db taskId notifId now params faults, ?_⟩
  intro hinv t ht
  by_cases h1 : (!truthyNat params.leadId && !truthyStr params.clientId) = true
  · rw [createTask, if_pos (by simpa using h1)] at ht
    exact hinv t ht
  · by_cases h2 : (truthyNat params.leadId && truthyStr params.clientId) = true
    · rw [createTask, if_neg (by simpa using h1), if_pos (by simpa using h2)] at ht
      exact hinv t ht
    · have hne : truthyNat params.leadId ≠ truthyStr params.clientId := by
        cases hl : truthyNat params.leadId <;> cases hc : truthyStr params.clientId <;>
          simp_all
      obtain ⟨t2, -, htasks, hex⟩ := createTask_ok db taskId notifId now params faults hne
      rw [htasks] at ht
      rcases List.mem_append.mp ht with h | h
      · exact hinv t h
      · rw [List.mem_singleton.mp h]
        exact hex

/-- Witness for the amended C8 theorem: on the empty store, a task with only
a truthy `leadId` is created with `lead_id` set and `client_id` null. -/
theorem createTask_exclusivity_witness :
    ∃ t, (createTask tasksDb0 1 1 0 cparams0 noTaskFaults).1 = Except.ok t ∧
      (createTask tasksDb0 1 1 0 cparams0 noTaskFaults).2.tasks = tasksDb0.tasks ++ [t] ∧
      exclusiveTask t :=
  (createTask_exclusivity tasksDb0 1 1 0 cparams0 noTaskFaults).2.2.1 (by decide)


theorem createTask_result_eq (db : TasksDb) (taskId notifId now : Nat)
    (params : CreateTaskParams) (f1 f2 : TaskFaults) :
    (createTask db taskId notifId now params f1).1 =
      (createTask db taskId notifId now params f2).1 := by
  rw [createTask, createTask]
  by_cases h1 : (!truthyNat params.leadId && !truthyStr params.clientId) = true
  · rw [if_pos h1, if_pos h1]
  · rw [if_neg h1, if_neg h1]
    by_cases h2 : (truthyNat params.leadId && truthyStr params.clientId) = true
    · rw [if_pos h2, if_pos h2]
    · rw [if_neg h2, if_neg h2]

theorem updateTask_result_eq (db : TasksDb) (notifId now : Nat)
    (params : UpdateTaskParams) (f1 f2 : TaskFaults) :
    (updateTask db notifId now params f1).1 =
      (updateTask db notifId now params f2).1 := by
  rw [updateTask, updateTask]
  by_cases h1 : (params.status.isSome &&
      !(VALID_STATUS.contains (params.status.getD ""))) = true
  · rw [if_pos h1, if_pos h1]
  · rw [if_neg h1, if_neg h1]
    by_cases h2 : (params.priority.isSome &&
        !(VALID_PRIORITY.contains (params.priority.getD ""))) = true
    · rw [if_pos h2, if_pos h2]
    · rw [if_neg h2, if_neg h2]
      by_cases h3 : params.title = none ∧ params.assignedToEmail = none ∧
          params.description = none ∧ params.dueDate = none ∧
          params.status = none ∧ params.priority = none
      · rw [if_pos h3, if_pos h3]
      · rw [if_neg h3, if_neg h3]
        dsimp only
        cases hh : (db.tasks.filter (fun t => t.id == params.taskId)).head? with
        | none => rfl
        | some t0 =>
          dsimp only
          cases hea : params.assignedToEmail with
          | some e =>
            dsimp only
            by_cases h4 : (e == "") = true
            · rw [if_pos h4, if_pos h4]
            · rw [if_neg h4, if_neg h4]
          | none =>
            dsimp only
            by_cases h4 : ((applyTaskUpdate params now t0).assigned_to_email == "") = true
            · rw [if_pos h4, if_pos h4]
            · rw [if_neg h4, if_neg h4]

/-- C9: the side effects of `createTask` and `updateTask` are best-effort.
The returned value never depends on the outcome of the activity insert, the
client lookup, the mark-notifications-read update, or the notification
insert: whenever the primary task write succeeds (the no-fault run returns
the task), every fault-injected run returns the same task, and no
side-effect error is ever propagated to the caller. -/
theorem taskSideEffects_swallowed (db : TasksDb) (taskId notifId now : Nat)
    (cparams : CreateTaskParams) (uparams : UpdateTaskParams) :
    (∀ t, (createTask db taskId notifId now cparams noTaskFaults).1 = Except.ok t →
      ∀ faults, (createTask db taskId notifId now cparams faults).1 = Except.ok t) ∧
    (∀ t, (updateTask db notifId now uparams noTaskFaults).1 = Except.ok t →
      ∀ faults, (updateTask db notifId now uparams faults).1 = Except.ok t) := by
  constructor
  · intro t h faults
    rw [createTask_result_eq db taskId notifId now cparams faults noTaskFaults]
    exact h
  · intro t h faults
    rw [updateTask_result_eq db notifId now uparams faults noTaskFaults]
    exact h

/-- Store with one task, for concrete `updateTask` runs. -/
def tasksDb1 : TasksDb :=
  { tasks := [{ id := 1, lead_id := some 5, client_id := none,
                assigned_to_email := "a@b.c", title := "T", description := none,
                due_date := none, status := "open", priority := "normal",
                created_at := 0, updated_at := 0 }],
    taskActivities := [], notifications := [], clients := [] }

/-- A status-only patch for task 1. -/
def uparams0 : UpdateTaskParams :=
  { taskId := 1, title := none, assignedToEmail := none, description := none,
    dueDate := none, status := some "done", priority := none }

/-- All injectable side effects fail. -/
def allTaskFaults : TaskFaults := ⟨some "x", some "x", some "x", some "x"⟩

/-- Witness for C9: with every side effect failing, `createTask` still
returns the created task and `updateTask` still returns the patched task. -/
theorem taskSideEffects_swallowed_witness :
    (createTask tasksDb0 1 1 0 cparams0 allTaskFaults).1 =
      Except.ok { id := 1, lead_id := some 5, client_id := none,
                  assigned_to_email := "a@b.c", title := "T", description := none,
                  due_date := none, status := "open", priority := "normal",
                  created_at := 0, updated_at := 0 } ∧
    (updateTask tasksDb1 2 3 uparams0 allTaskFaults).1 =
      Except.ok { id := 1, lead_id := some 5, client_id := none,
                  assigned_to_email := "a@b.c", title := "T", description := none,
                  due_date := none, status := "done", priority := "normal",
                  created_at := 0, updated_at := 3 } :=
  ⟨(taskSideEffects_swallowed tasksDb0 1 1 0 cparams0 uparams0).1 _ rfl allTaskFaults,
   (taskSideEffects_swallowed tasksDb1 2 2 3 cparams0 uparams0).2 _ rfl allTaskFaults⟩


/-!
Embedding of the recent-activity feed of `getDashboardSummary`
(`src/services/dashboard.service.ts:160-289`): three per-source queries with
`ORDER BY created_at DESC LIMIT 25`, per-item tagging with `source_type` and
the owning lead's contact company, then an in-memory sort by `created_at`
descending truncated to 25.  `created_at` values are instants (the SQL casts
every naive timestamp to UTC; the string round-trip is verified separately in
the timestamp section), and the JS `Array.prototype.sort` with comparator
`timeB - timeA` is modelled as a stable sort.
-/

/-- Stable sort by a numeric key, descending — the observable behavior of
both `ORDER BY key DESC` and `Array.prototype.sort((a, b) => keyB - keyA)`. -/
def sortDesc {α : Type} (key : α → Nat) (l : List α) : List α :=
  List.insertionSort (fun a b => key b ≤ key a) l

theorem sortDesc_sorted {α : Type} (key : α → Nat) (l : List α) :
    (sortDesc key l).Pairwise (fun a b => key b ≤ key a) := by
  letI : IsTotal α (fun a b => key b ≤ key a) := ⟨fun a b => le_total (key b) (key a)⟩
  letI : IsTrans α (fun a b => key b ≤ key a) := ⟨fun a b c h1 h2 => le_trans h2 h1⟩
  exact List.sorted_insertionSort _ l

theorem sortDesc_perm {α : Type} (key : α → Nat) (l : List α) :
    List.Perm (sortDesc key l) l :=
  List.perm_insertionSort _ l

/-- Database state for the dashboard summary. -/
structure DashDb where
  leads : List LeadRow
  contacts : List ContactRow
  activities : List ActivityRow
  coldCalls : List ColdCallRow
  onsiteVisits : List OnsiteVisitRow
  teamTasks : List TaskRow
deriving Repr, DecidableEq

/-- One item of the merged recent-activity feed. -/
structure FeedItem where
  lead_id : Option Nat
  activity_type : String
  description : Option String
  created_at : Nat
  source_type : String
  company_name : String
  assigned_to_email : Option String
deriving Repr, DecidableEq

/-- `COALESCE(c.company, 'N/A')` through the two LEFT JOINs, then the JS
`row.company_name || 'N/A'` (an empty-string company also maps to `N/A`). -/
def dashCompany (db : DashDb) (leadId : Option Nat) : String :=
  let sqlVal := match leadId with
    | none => "N/A"
    | some lid => (contactCompany db.leads db.contacts lid).getD "N/A"
  if sqlVal = "" then "N/A" else sqlVal

/-- The `assigned_to_email` column of the activities query: for `task`
activities, the email of a team task on the same lead created within five
seconds of the activity (the join window pairs each task activity with its
task; modelled as the first matching task). -/
def assignedEmailFor (db : DashDb) (a : ActivityRow) : Option String :=
  if a.activity_type == "task" then
    match db.teamTasks.find? (fun tt =>
        a.lead_id.isSome && a.lead_id == tt.lead_id &&
        (if tt.created_at ≤ a.created_at then a.created_at - tt.created_at
         else tt.created_at - a.created_at) < 5) with
    | some tt => some tt.assigned_to_email
    | none => none
  else none

/-- The cold-call description `CASE`: SQL `||` propagates NULL, so a NULL
outcome yields a NULL description. -/
def coldCallDescr (cc : ColdCallRow) : Option String :=
  match cc.outcome with
  | none => none
  | some o =>
    match cc.notes with
    | some n => if n ≠ "" then some ("Outcome: " ++ o ++ " - " ++ n)
                else some ("Outcome: " ++ o)
    | none => some ("Outcome: " ++ o)

/-- The onsite-visit description `CASE` with its `COALESCE` defaults. -/
def visitDescr (v : OnsiteVisitRow) : Option String :=
  let base := "Location: " ++ v.address.getD "N/A" ++ " - Outcome: " ++ v.status.getD "N/A"
  match v.notes with
  | some n => if n ≠ "" then some (base ++ " - " ++ n) else some base
  | none => some base

/-- The tagged items of the activities query (`LIMIT 25`, newest first). -/
def activityItems (db : DashDb) : List FeedItem :=
  ((sortDesc (fun a : ActivityRow => a.created_at) db.activities).take 25).map (fun a =>
    { lead_id := a.lead_id, activity_type := a.activity_type,
      description := a.description, created_at := a.created_at,
      source_type := "activity", company_name := dashCompany db a.lead_id,
      assigned_to_email := assignedEmailFor db a })

/-- The tagged items of the cold-calls query (`LIMIT 25`, newest first). -/
def coldCallItems (db : DashDb) : List FeedItem :=
  ((sortDesc (fun c : ColdCallRow => c.created_at) db.coldCalls).take 25).map (fun cc =>
    { lead_id := cc.lead_id, activity_type := "cold_call",
      description := coldCallDescr cc, created_at := cc.created_at,
      source_type := "cold_call", company_name := dashCompany db cc.lead_id,
      assigned_to_email := none })

/-- The tagged items of the onsite-visits query (`LIMIT 25`, newest first). -/
def visitItems (db : DashDb) : List FeedItem :=
  ((sortDesc (fun v : OnsiteVisitRow => v.created_at) db.onsiteVisits).take 25).map
    (fun v =>
      { lead_id := v.lead_id, activity_type := "onsite_visit",
        description := visitDescr v, created_at := v.created_at,
        source_type := "onsite_visit", company_name := dashCompany db v.lead_id,
        assigned_to_email := none })

/-- Embedding of the `recentActivities` computation of `getDashboardSummary`:
concatenate the three tagged per-source lists, sort by `created_at`
descending in memory, and keep the top 25. -/
def recentActivities (db : DashDb) : List FeedItem :=
  (sortDesc (fun it : FeedItem => it.created_at)
    (activityItems db ++ coldCallItems db ++ visitItems db)).take 25

/-- Concrete C4 instance: one lead with an activity at T+2 (T = 100), a cold
call at T+1, an onsite visit at T+3. -/
def c4db : DashDb :=
  { leads := [{ id := 3, name := some "P", email := none, phone := none,
                contact_id := some 7, source := none, stage := "new", status := "new",
                verticals := none, notes := none, created_by_email := none,
                created_at := 0, updated_at := 0 }],
    contacts := [c10contactB],
    activities := [{ id := 1, lead_id := some 3, contact_id := none,
                     activity_type := "note", description := some "called",
                     created_at := 102 }],
    coldCalls := [{ id := 1, lead_id := some 3, call_date := 101, duration := none,
                    outcome := some "answered", notes := none, created_at := 101 }],
    onsiteVisits := [{ id := 1, lead_id := some 3, visit_date := 103, address := some "HQ",
                       visit_type := none, status := some "completed", notes := none,
                       in_time := none, out_time := none, created_at := 103,
                       updated_at := 103 }],
    teamTasks := [] }

/-- C4: the dashboard recent-activity feed takes at most 25 rows from each of
the three logs, tags each item with its `source_type` and the owning lead's
contact company name, merges and sorts by `created_at` descending, and
returns at most the top 25; every returned item comes from one of the three
tagged per-source lists.  On the concrete instance with a cold call at T+1,
an activity at T+2 and an onsite visit at T+3, the returned order is
[T+3, T+2, T+1] with source types [onsite_visit, activity, cold_call]. -/
theorem dashboard_recent_feed :
    (∀ db : DashDb,
      (recentActivities db).length ≤ 25 ∧
      (recentActivities db).Pairwise (fun x y => y.created_at ≤ x.created_at) ∧
      (∀ it ∈ recentActivities db,
        it ∈ activityItems db ∨ it ∈ coldCallItems db ∨ it ∈ visitItems db) ∧
      (∀ it ∈ activityItems db, it.source_type = "activity") ∧
      (∀ it ∈ coldCallItems db, it.source_type = "cold_call") ∧
      (∀ it ∈ visitItems db, it.source_type = "onsite_visit") ∧
      (activityItems db).length ≤ 25 ∧ (coldCallItems db).length ≤ 25 ∧
      (visitItems db).length ≤ 25) ∧
    (recentActivities c4db).map (fun it => it.created_at) = [103, 102, 101] ∧
    (recentActivities c4db).map (fun it => it.source_type) =
      ["onsite_visit", "activity", "cold_call"] ∧
    (recentActivities c4db).map (fun it => it.company_name) =
      ["BigCo", "BigCo", "BigCo"] := by
  refine ⟨?_, by decide, by decide, by decide⟩
  intro db
  refine ⟨List.length_take_le 25 _, ?_, ?_, ?_, ?_, ?_, ?_, ?_, ?_⟩
  · exact (sortDesc_sorted (fun it : FeedItem => it.created_at) _).sublist
      (List.take_sublist 25 _)
  · intro it hit
    have h1 : it ∈ sortDesc (fun it : FeedItem => it.created_at)
        (activityItems db ++ coldCallItems db ++ visitItems db) :=
      (List.take_sublist 25 _).mem hit
    have h2 := (sortDesc_perm (fun it : FeedItem => it.created_at) _).mem_iff.mp h1
    rcases List.mem_append.mp h2 with h | h
    · rcases List.mem_append.mp h with h | h
      · exact Or.inl h
      · exact Or.inr (Or.inl h)
    · exact Or.inr (Or.inr h)
  · intro it hit
    obtain ⟨a, -, heq⟩ := List.mem_map.mp hit
    rw [← heq]
  · intro it hit
    obtain ⟨a, -, heq⟩ := List.mem_map.mp hit
    rw [← heq]
  · intro it hit
    obtain ⟨a, -, heq⟩ := List.mem_map.mp hit
    rw [← heq]
  · rw [activityItems, List.length_map]
    exact List.length_take_le 25 _
  · rw [coldCallItems, List.length_map]
    exact List.length_take_le 25 _
  · rw [visitItems, List.length_map]
    exact List.length_take_le 25 _


/-!
Embedding of the timestamp read path (C5).  Stored values are naive
timestamps whose fields mean UTC.  A JS `Date` is modelled by the calendar
fields of its instant in UTC (`Date.prototype.toISOString` prints exactly
those).  `new Date(string)` is parameterized by the server's UTC offset in
minutes: a string carrying a zone marker is absolute, a zoneless date-time
string is interpreted in server-local time (shifted by the offset).  The
dashboard's `toISOString` helper (dashboard.service.ts:231-255) appends `Z`
to zoneless strings before parsing; the chat timeline receives `Date` values
whose instant was fixed by the SQL cast `(col AT TIME ZONE 'UTC')::timestamptz`.
-/

/-- Naive calendar fields, second precision. -/
structure NaiveDT where
  year : Nat
  month : Nat
  day : Nat
  hour : Nat
  minute : Nat
  second : Nat
deriving Repr, DecidableEq

/-- Field ranges of a stored timestamp (four-digit year). -/
def ValidDT (t : NaiveDT) : Prop :=
  1000 ≤ t.year ∧ t.year ≤ 9999 ∧ 1 ≤ t.month ∧ t.month ≤ 12 ∧
  1 ≤ t.day ∧ t.day ≤ 31 ∧ t.hour ≤ 23 ∧ t.minute ≤ 59 ∧ t.second ≤ 59

instance (t : NaiveDT) : Decidable (ValidDT t) := by
  unfold ValidDT
  infer_instance

/-- Four-digit zero-padded field. -/
def pad4 (n : Nat) : List Char := padZero 4 (natDigits n)

/-- Two-digit zero-padded field. -/
def pad2 (n : Nat) : List Char := padZero 2 (natDigits n)

/-- The text form Postgres gives a naive `TIMESTAMP`:
`YYYY-MM-DD HH:MM:SS`. -/
def renderNaive (t : NaiveDT) : List Char :=
  pad4 t.year ++ ['-'] ++ pad2 t.month ++ ['-'] ++ pad2 t.day ++ [' '] ++
  pad2 t.hour ++ [':'] ++ pad2 t.minute ++ [':'] ++ pad2 t.second

/-- The ISO-UTC form `Date.prototype.toISOString` produces:
`YYYY-MM-DDTHH:MM:SS.000Z` (stored values carry whole seconds). -/
def renderIsoUTC (t : NaiveDT) : List Char :=
  pad4 t.year ++ ['-'] ++ pad2 t.month ++ ['-'] ++ pad2 t.day ++ ['T'] ++
  pad2 t.hour ++ [':'] ++ pad2 t.minute ++ [':'] ++ pad2 t.second ++ ".000Z".data

/-- A JS `Date` value: the UTC calendar fields of its instant. -/
structure JsDate where
  utcFields : NaiveDT
deriving Repr, DecidableEq

/-- `Date.prototype.toISOString`: print the UTC fields. -/
def jsDateToISO (d : JsDate) : List Char := renderIsoUTC d.utcFields

/-- Hinnant's days-from-civil: days since 1970-01-01 of a calendar date. -/
def daysFromCivil (y m d : Nat) : Int :=
  let yAdj : Int := (y : Int) - (if m ≤ 2 then 1 else 0)
  let era : Int := (if 0 ≤ yAdj then yAdj else yAdj - 399) / 400
  let yoe : Int := yAdj - era * 400
  let doy : Int := (153 * ((m : Int) + (if 2 < m then -3 else 9)) + 2) / 5 + (d : Int) - 1
  let doe : Int := yoe * 365 + yoe / 4 - yoe / 100 + doy
  era * 146097 + doe - 719468

/-- Hinnant's civil-from-days, inverse direction. -/
def civilFromDays (z : Int) : Nat × Nat × Nat :=
  let zd : Int := z + 719468
  let era : Int := (if 0 ≤ zd then zd else zd - 146096) / 146097
  let doe : Int := zd - era * 146097
  let yoe : Int := (doe - doe / 1460 + doe / 36524 - doe / 146096) / 365
  let y : Int := yoe + era * 400
  let doy : Int := doe - (365 * yoe + yoe / 4 - yoe / 100)
  let mp : Int := (5 * doy + 2) / 153
  let d : Int := doy - (153 * mp + 2) / 5 + 1
  let m : Int := mp + (if mp < 10 then 3 else -9)
  ((y + (if m ≤ 2 then 1 else 0)).toNat, m.toNat, d.toNat)

/-- Shift calendar fields by a number of minutes (calendar carry through
days-from-civil).  Used by the local-time interpretation of zoneless
strings. -/
def shiftMinutes (t : NaiveDT) (delta : Int) : NaiveDT :=
  let total : Int := daysFromCivil t.year t.month t.day * 1440 +
    (t.hour : Int) * 60 + (t.minute : Int) + delta
  let days : Int := Int.fdiv total 1440
  let rem : Int := total - days * 1440
  let c := civilFromDays days
  { year := c.1, month := c.2.1, day := c.2.2,
    hour := (rem / 60).toNat, minute := (rem % 60).toNat, second := t.second }

/-- Two-digit field value. -/
def val2 (a b : Char) : Nat := digitVal a * 10 + digitVal b

/-- Four-digit field value. -/
def val4 (a b c d : Char) : Nat :=
  ((digitVal a * 10 + digitVal b) * 10 + digitVal c) * 10 + digitVal d

/-- Parse a 19-character date-time string `YYYY-MM-DD HH:MM:SS` (also with a
`T` separator), the shapes the read path feeds to `new Date`. -/
def parseNaive19 : List Char → Option NaiveDT
  | [y1, y2, y3, y4, '-', mo1, mo2, '-', d1, d2, sep,
     h1, h2, ':', mi1, mi2, ':', s1, s2] =>
    if (sep = ' ' || sep = 'T') &&
       [y1, y2, y3, y4, mo1, mo2, d1, d2, h1, h2, mi1, mi2, s1, s2].all isDigitCh then
      some ⟨val4 y1 y2 y3 y4, val2 mo1 mo2, val2 d1 d2,
            val2 h1 h2, val2 mi1 mi2, val2 s1 s2⟩
    else none
  | _ => none

/-- The dashboard's zone-marker test:
`date.includes('Z') || date.includes('+') || date.includes('-', 10)`. -/
def hasZoneMarker (s : List Char) : Bool :=
  s.contains 'Z' || s.contains '+' || (s.drop 10).contains '-'

/-- JS `new Date(string)` on the shapes above, on a server whose local time
is `tzMin` minutes east of UTC: a trailing `Z` makes the string absolute
(fields are UTC fields); a zoneless string is read as local wall time, so
its UTC fields are shifted by `-tzMin`.  `none` is an Invalid Date. -/
def jsNewDate (tzMin : Int) (s : List Char) : Option JsDate :=
  if s.getLast? = some 'Z' then
    (parseNaive19 s.dropLast).map (fun t => ⟨t⟩)
  else
    (parseNaive19 s).map (fun t => ⟨shiftMinutes t (-tzMin)⟩)

/-- The SQL cast `(col AT TIME ZONE 'UTC')::timestamptz` on a stored naive
value: the instant whose UTC fields are the stored fields. -/
def sqlUtcCast (t : NaiveDT) : JsDate := ⟨t⟩

/-- A value as the row mappers see it. -/
inductive JsValue where
  | date (d : JsDate)
  | str (s : List Char)
  | nullv
deriving Repr, DecidableEq

/-- Embedding of the dashboard `toISOString` helper
(dashboard.service.ts:231-255): falsy input yields the current time; `Date`
instances print directly; strings without zone info get `Z` appended before
parsing; `none` models the RangeError a totally invalid string would raise
in `toISOString`. -/
def dashToISOString (tzMin : Int) (now : JsDate) (v : JsValue) : Option (List Char) :=
  match v with
  | JsValue.nullv => some (jsDateToISO now)
  | JsValue.date d => some (jsDateToISO d)
  | JsValue.str s =>
    if s = [] then some (jsDateToISO now)
    else if ¬ hasZoneMarker s then
      (jsNewDate tzMin (s ++ ['Z'])).map jsDateToISO
    else
      (jsNewDate tzMin s).map jsDateToISO

/-- Embedding of the chat timeline `convertToUTC` helpers
(chat.service.ts:889-898, 967-977): `Date` instances print directly, strings
are parsed with plain `new Date(value)` (no reinterpretation). -/
def chatConvertToUTC (tzMin : Int) (v : JsValue) : Option (List Char) :=
  match v with
  | JsValue.nullv => none
  | JsValue.date d => some (jsDateToISO d)
  | JsValue.str s => (jsNewDate tzMin s).map jsDateToISO


theorem isDigit_mod (k : Nat) : isDigitCh (digitChar (k % 10)) = true :=
  isDigitCh_digitChar (Nat.mod_lt _ (by omega))

theorem digitVal_mod (k : Nat) : digitVal (digitChar (k % 10)) = k % 10 :=
  digitVal_digitChar (Nat.mod_lt _ (by omega))

theorem digitsW_two (n : Nat) :
    digitsW 2 n = [digitChar (n / 10 % 10), digitChar (n % 10)] := rfl

theorem digitsW_four (n : Nat) :
    digitsW 4 n = [digitChar (n / 1000 % 10), digitChar (n / 100 % 10),
      digitChar (n / 10 % 10), digitChar (n % 10)] := by
  show [digitChar (n / 10 / 10 / 10 % 10), digitChar (n / 10 / 10 % 10),
    digitChar (n / 10 % 10), digitChar (n % 10)] = _
  simp only [Nat.div_div_eq_div_mul]

theorem pad2_eq {n : Nat} (h : n < 100) :
    pad2 n = [digitChar (n / 10 % 10), digitChar (n % 10)] := by
  rw [pad2, padZero_natDigits 1 n (by norm_num; omega), digitsW_two]

theorem pad4_eq {n : Nat} (h : n < 10000) :
    pad4 n = [digitChar (n / 1000 % 10), digitChar (n / 100 % 10),
      digitChar (n / 10 % 10), digitChar (n % 10)] := by
  rw [pad4, padZero_natDigits 3 n (by norm_num; omega), digitsW_four]

theorem renderNaive_explicit (t : NaiveDT) (h : ValidDT t) :
    renderNaive t =
      [digitChar (t.year / 1000 % 10), digitChar (t.year / 100 % 10),
       digitChar (t.year / 10 % 10), digitChar (t.year % 10), '-',
       digitChar (t.month / 10 % 10), digitChar (t.month % 10), '-',
       digitChar (t.day / 10 % 10), digitChar (t.day % 10), ' ',
       digitChar (t.hour / 10 % 10), digitChar (t.hour % 10), ':',
       digitChar (t.minute / 10 % 10), digitChar (t.minute % 10), ':',
       digitChar (t.second / 10 % 10), digitChar (t.second % 10)] := by
  obtain ⟨h1, h2, h3, h4, h5, h6, h7, h8, h9⟩ := h
  rw [renderNaive, pad4_eq (by omega), pad2_eq (by omega : t.month < 100),
    pad2_eq (by omega : t.day < 100), pad2_eq (by omega : t.hour < 100),
    pad2_eq (by omega : t.minute < 100), pad2_eq (by omega : t.second < 100)]
  simp only [List.cons_append, List.nil_append]

theorem contains_false {c : Char} : ∀ l : List Char,
    (∀ x ∈ l, x ≠ c) → l.contains c = false := by
  intro l
  induction l with
  | nil => intro _; rfl
  | cons x xs ih =>
    intro h
    rw [List.contains_cons]
    rw [beq_eq_false_iff_ne.mpr (fun he => (h x (by simp)) he.symm)]
    rw [ih (fun y hy => h y (by simp [hy]))]
    rfl

theorem render_chars (t : NaiveDT) (h : ValidDT t) :
    ∀ x ∈ renderNaive t, isDigitCh x = true ∨ x = '-' ∨ x = ' ' ∨ x = ':' := by
  rw [renderNaive_explicit t h]
  intro x hx
  fin_cases hx <;> first | (left; exact isDigit_mod _) | decide

theorem render_ne_Z (t : NaiveDT) (h : ValidDT t) :
    (renderNaive t).contains 'Z' = false := by
  apply contains_false
  intro x hx
  rcases render_chars t h x hx with hd | hd | hd | hd
  · intro he
    subst he
    simp [isDigitCh] at hd
  · subst hd; decide
  · subst hd; decide
  · subst hd; decide

theorem render_ne_plus (t : NaiveDT) (h : ValidDT t) :
    (renderNaive t).contains '+' = false := by
  apply contains_false
  intro x hx
  rcases render_chars t h x hx with hd | hd | hd | hd
  · intro he
    subst he
    simp [isDigitCh] at hd
  · subst hd; decide
  · subst hd; decide
  · subst hd; decide

theorem digitChar_mod_ne (k : Nat) {c : Char} (hc : isDigitCh c = false) :
    digitChar (k % 10) ≠ c := by
  intro he
  have hd := isDigit_mod k
  rw [he, hc] at hd
  exact absurd hd (by simp)

theorem render_drop10 (t : NaiveDT) (h : ValidDT t) :
    ((renderNaive t).drop 10).contains '-' = false := by
  rw [renderNaive_explicit t h]
  apply contains_false
  intro x hx
  fin_cases hx <;> first | exact digitChar_mod_ne _ (by decide) | decide

theorem render_no_zone (t : NaiveDT) (h : ValidDT t) :
    hasZoneMarker (renderNaive t) = false := by
  rw [hasZoneMarker, render_ne_Z t h, render_ne_plus t h, render_drop10 t h]
  rfl


theorem parse_render (t : NaiveDT) (h : ValidDT t) :
    parseNaive19 (renderNaive t) = some t := by
  rcases t with ⟨y, mo, dd, hh, mi, ss⟩
  obtain ⟨h1, h2, h3, h4, h5, h6, h7, h8, h9⟩ := h
  rw [renderNaive_explicit ⟨y, mo, dd, hh, mi, ss⟩ ⟨h1, h2, h3, h4, h5, h6, h7, h8, h9⟩]
  simp only [parseNaive19]
  rw [if_pos (by simp [isDigit_mod])]
  simp only [Option.some.injEq, NaiveDT.mk.injEq, val4, val2, digitVal_mod]
  dsimp only at h1 h2 h3 h4 h5 h6 h7 h8 h9
  omega

/-- C5: for every stored naive timestamp that represents UTC, both read-path
conversions return the same instant with an explicit UTC offset, independent
of the server timezone.  The dashboard `toISOString` helper sees the naive
string has no zone marker, appends `Z` (reinterpreting it as UTC) and prints
`YYYY-MM-DDTHH:MM:SS.000Z`; the chat timeline receives the instant already
reinterpreted by the SQL cast `AT TIME ZONE 'UTC'` and prints its UTC
fields.  The server offset `tzMin` does not occur in the result. -/
theorem timestamp_utc_roundtrip (t : NaiveDT) (tzMin : Int) (now : JsDate)
    (h : ValidDT t) :
    dashToISOString tzMin now (JsValue.str (renderNaive t)) = some (renderIsoUTC t) ∧
    chatConvertToUTC tzMin (JsValue.date (sqlUtcCast t)) = some (renderIsoUTC t) := by
  constructor
  · rw [dashToISOString]
    have hne : renderNaive t ≠ [] := by
      rw [renderNaive_explicit t h]
      simp
    rw [if_neg hne]
    rw [if_pos (by rw [render_no_zone t h]; simp)]
    rw [jsNewDate]
    rw [if_pos (List.getLast?_concat _)]
    rw [List.dropLast_concat]
    rw [parse_render t h]
    rfl
  · rfl

/-- The spec's concrete timestamp. -/
def c5t : NaiveDT := ⟨2024, 1, 15, 10, 0, 0⟩

/-- Witness for C5: the naive string `2024-01-15 10:00:00` comes back as
`2024-01-15T10:00:00.000Z` on a server at UTC+5:30, and the SQL-cast date
prints the same on a server at UTC-8. -/
theorem timestamp_utc_roundtrip_witness :
    ValidDT c5t ∧
    dashToISOString 330 (JsDate.mk c5t) (JsValue.str "2024-01-15 10:00:00".data) =
      some "2024-01-15T10:00:00.000Z".data ∧
    chatConvertToUTC (-480) (JsValue.date (sqlUtcCast c5t)) =
      some "2024-01-15T10:00:00.000Z".data := by
  refine ⟨by decide, ?_, ?_⟩
  · have h := (timestamp_utc_roundtrip c5t 330 (JsDate.mk c5t) (by decide)).1
    have e1 : renderNaive c5t = "2024-01-15 10:00:00".data := by decide
    have e2 : renderIsoUTC c5t = "2024-01-15T10:00:00.000Z".data := by decide
    rw [e1, e2] at h
    exact h
  · have h := (timestamp_utc_roundtrip c5t (-480) (JsDate.mk c5t) (by decide)).2
    have e2 : renderIsoUTC c5t = "2024-01-15T10:00:00.000Z".data := by decide
    rw [e2] at h
    exact h

end Crm
